import Mathlib

/-!
Shallow embedding of the distill retrieval-deduplication pipeline
(packages `pkg/math`, `pkg/types`, `pkg/contextlab`, `pkg/retriever`).

Modelling conventions:
* Go `float32`/`float64` values are idealised as real numbers (the spec
  itself states its numeric contracts "modulo floating point").
* Go slices passed to a function share their backing array with the
  caller, so functions that assign through the slice are modelled as
  returning the final state of the caller's slice alongside their result.
* Go runtime panics (out-of-range indexing) are modelled by `Option`:
  `none` is a panic.
* Go `time.Duration` latency fields are wall-clock measurements and are
  not modelled; every other field of the structs is carried.
* Iteration over a Go map (`for idx := range remaining` in `MMR.Rerank`)
  has unspecified order; it is modelled by an explicit order parameter
  `shuffle : ℕ → List ℕ → List ℕ` giving, for each round, the order in
  which the remaining candidate set is enumerated.
-/

namespace Distill

/-- Chunk mirrors `types.Chunk` (pkg/types/chunk.go): id, text, embedding,
relevance score, metadata, and the cluster id assigned by the pipeline
(`-1` = unassigned). -/
structure Chunk where
  ID : String
  Text : String
  Embedding : List ℝ
  Score : ℝ
  Metadata : List (String × String)
  ClusterID : ℤ

instance : Inhabited Chunk := ⟨⟨"", "", [], 0, [], 0⟩⟩

/-- Cluster mirrors `types.Cluster`. -/
structure Cluster where
  ID : ℤ
  Members : List Chunk
  Centroid : List ℝ
  Representative : Option Chunk

/-- ClusterResult mirrors `types.ClusterResult` (latency omitted). -/
structure ClusterResult where
  Clusters : List Cluster
  Representatives : List Chunk
  InputCount : ℕ
  ClusterCount : ℕ

/-- BrokerStats mirrors `types.BrokerStats` (latency fields omitted). -/
structure BrokerStats where
  Retrieved : ℕ
  Clustered : ℕ
  Returned : ℕ

/-- BrokerResult mirrors `types.BrokerResult`. -/
structure BrokerResult where
  Chunks : List Chunk
  Stats : BrokerStats

/-- RetrievalRequest mirrors `types.RetrievalRequest`. -/
structure RetrievalRequest where
  Query : String
  QueryEmbedding : List ℝ
  TopK : ℤ
  Namespace : String
  Filter : List (String × String)
  IncludeEmbeddings : Bool
  IncludeMetadata : Bool

/-! ## Numeric kernel (`pkg/math`, vectors.go section of the source) -/

/-- Sum of pairwise products accumulated left to right — the `dot`
accumulator of `math.CosineDistance`. -/
noncomputable def dotSum (a b : List ℝ) : ℝ :=
  (List.zipWith (fun x y => x * y) a b).sum

/-- Sum of squares accumulated left to right — the `magA`/`magB`
accumulators of `math.CosineDistance`. -/
noncomputable def sqSum (a : List ℝ) : ℝ :=
  (a.map (fun x => x * x)).sum

/-- Clamp to [-1, 1], mirroring the two `if` statements that guard the
similarity ratio in `math.CosineDistance`. -/
noncomputable def clamp1 (x : ℝ) : ℝ :=
  if x > 1 then 1 else if x < -1 then -1 else x

/-- CosineDistance mirrors `math.CosineDistance`: 2.0 for an empty input,
both vectors truncated to the shorter length, 2.0 when the product of
magnitudes is zero, otherwise 1 minus the clamped similarity ratio. -/
noncomputable def CosineDistance (a b : List ℝ) : ℝ :=
  if a.length = 0 ∨ b.length = 0 then 2
  else
    let k := min a.length b.length
    let a' := a.take k
    let b' := b.take k
    let denom := Real.sqrt (sqSum a' * sqSum b')
    if denom = 0 then 2
    else 1 - clamp1 (dotSum a' b' / denom)

/-! ## Clusterer (`pkg/contextlab/cluster.go`) -/

/-- ClusterConfig mirrors `contextlab.ClusterConfig`. -/
structure ClusterConfig where
  Threshold : ℝ
  MinClusters : ℤ
  MaxClusters : ℤ
  Linkage : String

/-- DefaultClusterConfig mirrors `contextlab.DefaultClusterConfig`. -/
noncomputable def DefaultClusterConfig : ClusterConfig :=
  { Threshold := 0.15, MinClusters := 0, MaxClusters := 0, Linkage := "average" }

/-- NewClusterer mirrors `contextlab.NewClusterer`: non-positive threshold
falls back to 0.15, empty linkage falls back to "average". The stored
config is the whole state of a `Clusterer`. -/
noncomputable def NewClusterer (cfg : ClusterConfig) : ClusterConfig :=
  { cfg with
    Threshold := if cfg.Threshold ≤ 0 then 0.15 else cfg.Threshold
    Linkage := if cfg.Linkage = "" then "average" else cfg.Linkage }

/-- ClusterNode mirrors the private `clusterNode` struct: member indices
into the original chunk slice, a centroid, and an active flag. -/
structure ClusterNode where
  id : ℕ
  members : List ℕ
  centroid : List ℝ
  active : Bool

instance : Inhabited ClusterNode := ⟨⟨0, [], [], false⟩⟩

/-- Chunk copy with the cluster id overwritten (`chunks[idx].ClusterID = id`). -/
def setCID (c : Chunk) (cid : ℤ) : Chunk :=
  { c with ClusterID := cid }

/-- Entry (i, j) of the pairwise matrix built by
`Clusterer.computeDistanceMatrix`: the diagonal keeps its zero
initialisation, a pair with a missing embedding gets the maximum distance
2.0, and every other pair gets the cosine distance. -/
noncomputable def distEntry (chunks : List Chunk) (i j : ℕ) : ℝ :=
  if i = j then 0
  else
    let ei := (chunks.getD i default).Embedding
    let ej := (chunks.getD j default).Embedding
    if ei.length = 0 ∨ ej.length = 0 then 2 else CosineDistance ei ej

/-- Row-major list of the distances between the members of two cluster
nodes, as scanned by `Clusterer.clusterDistance`. -/
noncomputable def crossDists (a b : ClusterNode) (d : ℕ → ℕ → ℝ) : List ℝ :=
  a.members.flatMap (fun i => b.members.map (fun j => d i j))

/-- clusterDistance mirrors `Clusterer.clusterDistance`: running minimum
from 2.0 for "single", running maximum from 0.0 for "complete", and the
arithmetic mean (2.0 on an empty cross set) for "average" and for any
other linkage string (the Go `switch` falls through to `default`). -/
noncomputable def clusterDistance (linkage : String) (a b : ClusterNode)
    (d : ℕ → ℕ → ℝ) : ℝ :=
  if linkage = "single" then
    (crossDists a b d).foldl (fun m x => if x < m then x else m) 2
  else if linkage = "complete" then
    (crossDists a b d).foldl (fun m x => if x > m then x else m) 0
  else
    let ds := crossDists a b d
    if ds.length = 0 then 2 else ds.sum / (ds.length : ℝ)

/-- Index pairs (i, j) with i < j < n, in the row-major order of the
nested loops that search for the closest pair in `Clusterer.Cluster`. -/
def allPairs (n : ℕ) : List (ℕ × ℕ) :=
  (List.range n).flatMap (fun i =>
    ((List.range n).filter (fun j => i < j)).map (fun j => (i, j)))

/-- Fold of the closest-pair search in `Clusterer.Cluster`: the state is
(minDist, minI, minJ), starting at (2.0, -1, -1); inactive nodes are
skipped and a pair only replaces the state when its distance is strictly
smaller. -/
noncomputable def findMinAux (nodes : List ClusterNode) (linkage : String)
    (d : ℕ → ℕ → ℝ) : List (ℕ × ℕ) → ℝ × ℤ × ℤ → ℝ × ℤ × ℤ
  | [], st => st
  | p :: rest, st =>
    let st' :=
      match nodes.get? p.1, nodes.get? p.2 with
      | some a, some b =>
        if a.active && b.active then
          let dist := clusterDistance linkage a b d
          if dist < st.1 then (dist, (p.1 : ℤ), (p.2 : ℤ)) else st
        else st
      | _, _ => st
    findMinAux nodes linkage d rest st'

/-- Closest active pair over all i < j, as computed by the body of the
merging loop in `Clusterer.Cluster`. -/
noncomputable def findMin (nodes : List ClusterNode) (linkage : String)
    (d : ℕ → ℕ → ℝ) : ℝ × ℤ × ℤ :=
  findMinAux nodes linkage d (allPairs nodes.length) (2, -1, -1)

/-- mergeClusters mirrors `Clusterer.mergeClusters`: members of b are
appended to a, and the centroid is recomputed as the mean of all member
embeddings only when the FIRST chunk of the input slice has a non-empty
embedding (the code's guard is `len(chunks[0].Embedding) > 0`, so the
recomputation is skipped whenever chunk 0 lacks an embedding). Reading
`chunks[idx].Embedding[d]` with `d` up to chunk 0's dimension panics
(`none`) when a member's embedding is shorter. -/
noncomputable def mergeClusters (a b : ClusterNode) (chunks : List Chunk) :
    Option ClusterNode :=
  let members := a.members ++ b.members
  if chunks.length ≠ 0 ∧ (chunks.getD 0 default).Embedding.length ≠ 0 then
    let dim := (chunks.getD 0 default).Embedding.length
    if members.all (fun idx => dim ≤ (chunks.getD idx default).Embedding.length) then
      let centroid := (List.range dim).map (fun k =>
        (members.map (fun idx => ((chunks.getD idx default).Embedding.getD k 0))).sum
          * ((members.length : ℝ))⁻¹)
      some { a with members := members, centroid := centroid }
    else none
  else some { a with members := members }

/-- Fueled form of the agglomerative merging loop of `Clusterer.Cluster`
(`for activeCount > 1 { ... }`). Each pass either stops (MinClusters
reached, best distance above the threshold, or MaxClusters reached after
the merge) or performs one merge, so `n` units of fuel cover every run;
`none` models the panics reachable through `nodes[minI]` with
`minI = -1` and through `mergeClusters`. -/
noncomputable def mergeLoop (cfg : ClusterConfig) (chunks : List Chunk)
    (d : ℕ → ℕ → ℝ) : ℕ → List ClusterNode → ℕ → Option (List ClusterNode)
  | 0, nodes, _ => some nodes
  | fuel + 1, nodes, activeCount =>
    if activeCount ≤ 1 then some nodes
    else if 0 < cfg.MinClusters ∧ (activeCount : ℤ) ≤ cfg.MinClusters then some nodes
    else
      let st := findMin nodes cfg.Linkage d
      if cfg.Threshold < st.1 then some nodes
      else if 0 ≤ st.2.1 ∧ 0 ≤ st.2.2 then
        match nodes.get? st.2.1.toNat, nodes.get? st.2.2.toNat with
        | some ni, some nj =>
          match mergeClusters ni nj chunks with
          | none => none
          | some merged =>
            let nodes' := (nodes.set st.2.1.toNat merged).set st.2.2.toNat
              { nj with active := false }
            let ac' := activeCount - 1
            if 0 < cfg.MaxClusters ∧ (ac' : ℤ) ≤ cfg.MaxClusters then some nodes'
            else mergeLoop cfg chunks d fuel nodes' ac'
        | _, _ => none
      else none

/-- Sequentially numbered copies of the chunks, as written by the
no-embeddings path of `Clusterer.Cluster` (`chunks[i].ClusterID = i`). -/
def assignSeqIDs : ℕ → List Chunk → List Chunk
  | _, [] => []
  | i, c :: cs => setCID c (i : ℤ) :: assignSeqIDs (i + 1) cs

/-- Singleton clusters in input order for the no-embeddings path of
`Clusterer.Cluster` (centroid keeps its nil zero value). -/
def singletonClusters : ℕ → List Chunk → List Cluster
  | _, [] => []
  | i, c :: cs =>
    { ID := (i : ℤ), Members := [setCID c (i : ℤ)], Centroid := [],
      Representative := none } :: singletonClusters (i + 1) cs

/-- Output clusters built from the active nodes in node order, numbered
densely from the given counter, with each member copied after its
`ClusterID` is set (the result-building loop of `Clusterer.Cluster`). -/
noncomputable def buildClusters (chunks : List Chunk) : ℕ → List ClusterNode → List Cluster
  | _, [] => []
  | cid, node :: rest =>
    if node.active then
      { ID := (cid : ℤ)
        Members := node.members.map (fun idx => setCID (chunks.getD idx default) (cid : ℤ))
        Centroid := node.centroid
        Representative := none } :: buildClusters chunks (cid + 1) rest
    else buildClusters chunks cid rest

/-- Writes performed on the caller's chunk slice by the result-building
loop of `Clusterer.Cluster`: (index, cluster id) pairs in program order. -/
def buildAssignments : ℕ → List ClusterNode → List (ℕ × ℤ)
  | _, [] => []
  | cid, node :: rest =>
    if node.active then
      node.members.map (fun idx => (idx, (cid : ℤ))) ++ buildAssignments (cid + 1) rest
    else buildAssignments cid rest

/-- State of the caller's slice after the `chunks[idx].ClusterID = id`
writes. -/
def applyAssignments (chunks : List Chunk) (asg : List (ℕ × ℤ)) : List Chunk :=
  asg.foldl (fun cs p => cs.set p.1 (setCID (cs.getD p.1 default) p.2)) chunks

/-- Cluster mirrors `Clusterer.Cluster`. The second component of the
returned pair is the final state of the caller's chunk slice (the Go code
assigns `ClusterID` through the shared backing array); `none` models a
panic in the merging loop. -/
noncomputable def Clusterer.Cluster (cfg : ClusterConfig) (chunks : List Chunk) :
    Option (ClusterResult × List Chunk) :=
  let n := chunks.length
  if n = 0 then
    some ({ Clusters := [], Representatives := [], InputCount := 0, ClusterCount := 0 },
      chunks)
  else if n = 1 then
    let c0 := setCID (chunks.getD 0 default) 0
    some ({ Clusters := [{ ID := 0, Members := [c0], Centroid := c0.Embedding,
                           Representative := none }]
            Representatives := [c0], InputCount := 1, ClusterCount := 1 }, [c0])
  else if chunks.all (fun c => c.Embedding.length = 0) then
    let chunks' := assignSeqIDs 0 chunks
    some ({ Clusters := singletonClusters 0 chunks, Representatives := chunks'
            InputCount := n, ClusterCount := n }, chunks')
  else
    let nodes0 := (List.range n).map (fun i =>
      ({ id := i, members := [i], centroid := (chunks.getD i default).Embedding,
         active := true } : ClusterNode))
    match mergeLoop cfg chunks (distEntry chunks) n nodes0 n with
    | none => none
    | some nodes =>
      let clusters := buildClusters chunks 0 nodes
      let chunks' := applyAssignments chunks (buildAssignments 0 nodes)
      some ({ Clusters := clusters, Representatives := []
              InputCount := n, ClusterCount := clusters.length }, chunks')

/-! ## MMR re-ranker (`pkg/contextlab`, mmr.go section of the source) -/

/-- MMRConfig mirrors `contextlab.MMRConfig`. -/
structure MMRConfig where
  Lambda : ℝ
  TargetK : ℤ

/-- DefaultMMRConfig mirrors `contextlab.DefaultMMRConfig`. -/
noncomputable def DefaultMMRConfig : MMRConfig := { Lambda := 0.5, TargetK := 8 }

/-- NewMMR mirrors `contextlab.NewMMR`: Lambda clamped to [0, 1],
non-positive TargetK replaced by 8. -/
noncomputable def NewMMR (cfg : MMRConfig) : MMRConfig :=
  { Lambda := if cfg.Lambda < 0 then 0 else if cfg.Lambda > 1 then 1 else cfg.Lambda
    TargetK := if cfg.TargetK ≤ 0 then 8 else cfg.TargetK }

/-- normalizeScores mirrors `MMR.normalizeScores`: min-max scaling of the
scores to [0, 1]; when all scores are equal every normalised score is 1. -/
noncomputable def normalizeScores (chunks : List Chunk) : List ℝ :=
  match chunks with
  | [] => []
  | c :: rest =>
    let mn := rest.foldl (fun m x => if x.Score < m then x.Score else m) c.Score
    let mx := rest.foldl (fun m x => if x.Score > m then x.Score else m) c.Score
    if mx - mn = 0 then chunks.map (fun _ => 1)
    else chunks.map (fun x => (x.Score - mn) / (mx - mn))

/-- Entry (i, j) of the similarity matrix of `MMR.computeSimilarityMatrix`:
identity diagonal, 0 for pairs with a missing embedding, otherwise
1 minus the cosine distance. -/
noncomputable def simEntry (chunks : List Chunk) (i j : ℕ) : ℝ :=
  if i = j then 1
  else
    let ei := (chunks.getD i default).Embedding
    let ej := (chunks.getD j default).Embedding
    if ei.length = 0 ∨ ej.length = 0 then 0 else 1 - CosineDistance ei ej

/-- computeMMRScore mirrors `MMR.computeMMRScore`. Note that the running
maximum over the selected set starts at 0, so the similarity penalty is
`max 0 (max over selected of S[c][s])`, not the bare maximum. -/
noncomputable def computeMMRScore (lambda : ℝ) (scores : List ℝ) (sim : ℕ → ℕ → ℝ)
    (candidateIdx : ℕ) (selected : List ℕ) : ℝ :=
  let relevance := scores.getD candidateIdx 0
  if selected = [] then lambda * relevance
  else
    let maxSim := selected.foldl (fun m s => if sim candidateIdx s > m then sim candidateIdx s else m) 0
    lambda * relevance - (1 - lambda) * maxSim

/-- Inner candidate scan of `MMR.Rerank`'s greedy loop: the state is
(bestMMR, bestIdx) starting at (-2, -1) and a candidate replaces it only
when its MMR score is strictly larger. -/
noncomputable def pickBest (lambda : ℝ) (scores : List ℝ) (sim : ℕ → ℕ → ℝ)
    (selected : List ℕ) : List ℕ → ℝ × ℤ → ℝ × ℤ
  | [], st => st
  | idx :: rest, st =>
    let m := computeMMRScore lambda scores sim idx selected
    pickBest lambda scores sim selected rest (if m > st.1 then (m, (idx : ℤ)) else st)

/-- Greedy selection loop of `MMR.Rerank`. `shuffle` supplies the order in
which `for idx := range remaining` enumerates the remaining set at each
round (Go map iteration order is unspecified); the round counter is the
number of already-selected chunks. -/
noncomputable def rerankLoop (shuffle : ℕ → List ℕ → List ℕ) (lambda : ℝ)
    (targetK : ℤ) (scores : List ℝ) (sim : ℕ → ℕ → ℝ) :
    ℕ → List ℕ → List ℕ → List ℕ
  | 0, selected, _ => selected
  | fuel + 1, selected, remaining =>
    if (selected.length : ℤ) < targetK ∧ remaining ≠ [] then
      let st := pickBest lambda scores sim selected
        (shuffle selected.length remaining) (-2, -1)
      if 0 ≤ st.2 then
        rerankLoop shuffle lambda targetK scores sim fuel
          (selected ++ [st.2.toNat]) (remaining.erase st.2.toNat)
      else selected
    else selected

/-- Rerank mirrors `MMR.Rerank`: nil for empty input, the input unchanged
when it does not exceed TargetK, otherwise greedy MMR selection over the
normalised scores and the similarity matrix. -/
noncomputable def MMR.Rerank (shuffle : ℕ → List ℕ → List ℕ) (cfg : MMRConfig)
    (chunks : List Chunk) : List Chunk :=
  if chunks.length = 0 then []
  else if (chunks.length : ℤ) ≤ cfg.TargetK then chunks
  else
    let scores := normalizeScores chunks
    let sel := rerankLoop shuffle cfg.Lambda cfg.TargetK scores (simEntry chunks)
      chunks.length [] (List.range chunks.length)
    sel.map (fun idx => chunks.getD idx default)

/-- RerankWithQuery mirrors `MMR.RerankWithQuery`: unless either input is
empty, every chunk's Score is overwritten in place with the cosine
similarity to the query embedding, then `Rerank` runs on the rewritten
slice. The first component is the final state of the caller's slice, the
second the re-ranked result. -/
noncomputable def MMR.RerankWithQuery (shuffle : ℕ → List ℕ → List ℕ)
    (cfg : MMRConfig) (chunks : List Chunk) (queryEmbedding : List ℝ) :
    List Chunk × List Chunk :=
  if chunks.length = 0 ∨ queryEmbedding.length = 0 then (chunks, chunks)
  else
    let chunks' := chunks.map (fun c =>
      { c with Score := 1 - CosineDistance c.Embedding queryEmbedding })
    (chunks', MMR.Rerank shuffle cfg chunks')

/-! ## Selector (`pkg/contextlab`, selector.go section of the source) -/

/-- SelectorConfig mirrors `contextlab.SelectorConfig` (the strategy is the
Go string constant). -/
structure SelectorConfig where
  Strategy : String
  ScoreWeight : ℝ
  CentroidWeight : ℝ
  LengthWeight : ℝ

/-- DefaultSelectorConfig mirrors `contextlab.DefaultSelectorConfig`. -/
noncomputable def DefaultSelectorConfig : SelectorConfig :=
  { Strategy := "score", ScoreWeight := 0.7, CentroidWeight := 0.3, LengthWeight := 0 }

/-- NewSelector mirrors `contextlab.NewSelector`: an empty strategy string
falls back to "score". -/
def NewSelector (cfg : SelectorConfig) : SelectorConfig :=
  { cfg with Strategy := if cfg.Strategy = "" then "score" else cfg.Strategy }

/-- selectByScore mirrors `Selector.selectByScore`: highest score, first
occurrence on ties (strict `>` comparison starting from member 0). -/
noncomputable def selectByScore (cluster : Cluster) : Chunk :=
  (cluster.Members.drop 1).foldl
    (fun best c => if c.Score > best.Score then c else best)
    (cluster.Members.getD 0 default)

/-- selectByCentroid mirrors `Selector.selectByCentroid`: member closest to
the centroid (strict `<`), falling back to score when the centroid is
empty. -/
noncomputable def selectByCentroid (cluster : Cluster) : Chunk :=
  if cluster.Centroid.length = 0 then selectByScore cluster
  else
    ((cluster.Members.drop 1).foldl
      (fun best c =>
        if CosineDistance c.Embedding cluster.Centroid
            < CosineDistance best.Embedding cluster.Centroid then c else best)
      (cluster.Members.getD 0 default))

/-- selectByLength mirrors `Selector.selectByLength`: longest text, first
occurrence on ties. Go measures bytes; texts are modelled at code-point
granularity, which agrees on the ASCII inputs the spec commits to. -/
noncomputable def selectByLength (cluster : Cluster) : Chunk :=
  (cluster.Members.drop 1).foldl
    (fun best c => if c.Text.length > best.Text.length then c else best)
    (cluster.Members.getD 0 default)

/-- Hybrid score of one member given the cluster-wide ranges, mirroring the
body of the scoring loop in `Selector.selectByHybrid` (a zero range
contributes the full weight). -/
noncomputable def hybridScore (scoreW centroidW lengthW : ℝ)
    (minScore maxScore : ℝ) (minDist maxDist : ℝ) (minLen maxLen : ℕ)
    (dist : ℝ) (c : Chunk) : ℝ :=
  (if maxScore - minScore > 0 then scoreW * (c.Score - minScore) / (maxScore - minScore)
   else scoreW)
  + (if maxDist - minDist > 0 then centroidW * (1 - (dist - minDist) / (maxDist - minDist))
     else centroidW)
  + (if (maxLen : ℝ) - (minLen : ℝ) > 0 then
       lengthW * ((c.Text.length : ℝ) - (minLen : ℝ)) / ((maxLen : ℝ) - (minLen : ℝ))
     else lengthW)

/-- selectByHybrid mirrors `Selector.selectByHybrid`: weighted combination
of min-max-normalised score, centroid proximity, and text length, with
fallback to score when the centroid is empty or the weights sum to 0;
best hybrid score wins, first occurrence on ties (strict `>` from -1). -/
noncomputable def selectByHybrid (cfg : SelectorConfig) (cluster : Cluster) : Chunk :=
  if cluster.Centroid.length = 0 then selectByScore cluster
  else if cfg.ScoreWeight + cfg.CentroidWeight + cfg.LengthWeight = 0 then
    selectByScore cluster
  else
    let total := cfg.ScoreWeight + cfg.CentroidWeight + cfg.LengthWeight
    let scoreW := cfg.ScoreWeight / total
    let centroidW := cfg.CentroidWeight / total
    let lengthW := cfg.LengthWeight / total
    let scores := cluster.Members.map (fun c => c.Score)
    let minScore := scores.foldl (fun m x => if x < m then x else m)
      (cluster.Members.getD 0 default).Score
    let maxScore := scores.foldl (fun m x => if x > m then x else m)
      (cluster.Members.getD 0 default).Score
    let dists := cluster.Members.map (fun c => CosineDistance c.Embedding cluster.Centroid)
    let minDist := dists.foldl (fun m x => if x < m then x else m) 2
    let maxDist := dists.foldl (fun m x => if x > m then x else m) 0
    let lens := cluster.Members.map (fun c => c.Text.length)
    let minLen := lens.foldl (fun m x => if x < m then x else m)
      (cluster.Members.getD 0 default).Text.length
    let maxLen := lens.foldl (fun m x => if x > m then x else m)
      (cluster.Members.getD 0 default).Text.length
    ((cluster.Members.map (fun c =>
        (hybridScore scoreW centroidW lengthW minScore maxScore minDist maxDist
          minLen maxLen (CosineDistance c.Embedding cluster.Centroid) c, c))).foldl
      (fun (best : ℝ × Chunk) hc => if hc.1 > best.1 then hc else best)
      (-1, cluster.Members.getD 0 default)).2

/-- SelectFromCluster mirrors `Selector.SelectFromCluster`: `none` for an
empty cluster, the sole member of a singleton, otherwise the configured
strategy (unknown strategies fall back to score). -/
noncomputable def SelectFromCluster (cfg : SelectorConfig) (cluster : Cluster) :
    Option Chunk :=
  if cluster.Members.length = 0 then none
  else if cluster.Members.length = 1 then some (cluster.Members.getD 0 default)
  else if cfg.Strategy = "score" then some (selectByScore cluster)
  else if cfg.Strategy = "centroid" then some (selectByCentroid cluster)
  else if cfg.Strategy = "length" then some (selectByLength cluster)
  else if cfg.Strategy = "hybrid" then some (selectByHybrid cfg cluster)
  else some (selectByScore cluster)

/-- Select mirrors `Selector.Select`: one representative per cluster, each
written back into the cluster and into the result's representative list;
a nil cluster list returns nil without touching the result. The second
component is the updated ClusterResult (the Go code mutates it through
the pointer). -/
noncomputable def Selector.Select (cfg : SelectorConfig) (result : ClusterResult) :
    List Chunk × ClusterResult :=
  if result.Clusters.length = 0 then ([], result)
  else
    let clusters' := result.Clusters.map (fun cl =>
      match SelectFromCluster cfg cl with
      | some rep => { cl with Representative := some rep }
      | none => cl)
    let reps := result.Clusters.filterMap (SelectFromCluster cfg)
    (reps, { result with Clusters := clusters', Representatives := reps })

/-- One pass of the exchange sort in `SelectTopK`: the pivot holds the
running maximum of position i; whenever a later element is strictly
larger the two are swapped, leaving the displaced element at the later
position. Returns the final pivot and the rewritten tail. -/
noncomputable def exchangePass : Chunk → List Chunk → Chunk × List Chunk
  | b, [] => (b, [])
  | b, x :: xs =>
    if x.Score > b.Score then
      let p := exchangePass x xs
      (p.1, b :: p.2)
    else
      let p := exchangePass b xs
      (p.1, x :: p.2)

/-- Fueled form of the full double loop of `SelectTopK`'s score sort. -/
noncomputable def exchangeSortF : ℕ → List Chunk → List Chunk
  | 0, l => l
  | _ + 1, [] => []
  | fuel + 1, x :: xs =>
    let p := exchangePass x xs
    p.1 :: exchangeSortF fuel p.2

/-- Descending score sort performed by `SelectTopK` (an exchange sort: for
each position, swap in any strictly larger later element). -/
noncomputable def exchangeSort (l : List Chunk) : List Chunk :=
  exchangeSortF l.length l

/-- SelectTopK mirrors `contextlab.SelectTopK`: re-select representatives
with the default selector config under the given strategy, return them
unchanged when they do not exceed k, otherwise exchange-sort by score
descending and keep the first k. -/
noncomputable def SelectTopK (result : ClusterResult) (k : ℤ) (strategy : String) :
    List Chunk :=
  let reps := (Selector.Select (NewSelector { DefaultSelectorConfig with Strategy := strategy }) result).1
  if (reps.length : ℤ) ≤ k then reps
  else (exchangeSort reps).take k.toNat

/-! ## Broker (`pkg/contextlab`, broker.go section of the source) -/

/-- BrokerConfig mirrors `contextlab.BrokerConfig`. -/
structure BrokerConfig where
  OverFetchK : ℤ
  TargetK : ℤ
  ClusterThreshold : ℝ
  ClusterLinkage : String
  SelectionStrategy : String
  EnableMMR : Bool
  MMRLambda : ℝ
  IncludeEmbeddings : Bool
  IncludeMetadata : Bool

/-- Error values surfaced by `Broker.Retrieve`; upstream collaborator
failures carry the collaborator's message. -/
inductive BrokerError where
  | configurationError
  | embedFailed (msg : String)
  | invalidQuery
  | retrievalFailed (msg : String)
deriving DecidableEq

/-- Broker mirrors `contextlab.Broker`: configuration, the collaborator
capabilities, and the sub-components built from the configuration. -/
structure Broker where
  cfg : BrokerConfig
  retrieverQ : RetrievalRequest → Except String (List Chunk)
  embedder : Option (String → Except String (List ℝ))
  clusterer : ClusterConfig
  selector : SelectorConfig
  mmr : Option MMRConfig

/-- NewBroker mirrors `contextlab.NewBroker`: IncludeEmbeddings forced on,
defaults applied, and the clusterer/selector/MMR sub-objects built. -/
noncomputable def NewBroker (ret : RetrievalRequest → Except String (List Chunk))
    (cfg : BrokerConfig) : Broker :=
  let cfg' : BrokerConfig :=
    { cfg with
      IncludeEmbeddings := true
      OverFetchK := if cfg.OverFetchK ≤ 0 then 50 else cfg.OverFetchK
      TargetK := if cfg.TargetK ≤ 0 then 8 else cfg.TargetK
      ClusterThreshold := if cfg.ClusterThreshold ≤ 0 then 0.15 else cfg.ClusterThreshold
      MMRLambda := if cfg.MMRLambda < 0 ∨ cfg.MMRLambda > 1 then 0.5 else cfg.MMRLambda }
  { cfg := cfg'
    retrieverQ := ret
    embedder := none
    clusterer := NewClusterer
      { Threshold := cfg'.ClusterThreshold, MinClusters := 0, MaxClusters := 0,
        Linkage := cfg'.ClusterLinkage }
    selector := NewSelector
      { Strategy := cfg'.SelectionStrategy, ScoreWeight := 0, CentroidWeight := 0,
        LengthWeight := 0 }
    mmr := if cfg'.EnableMMR then
        some (NewMMR { Lambda := cfg'.MMRLambda, TargetK := cfg'.TargetK })
      else none }

/-- NewBrokerWithEmbedder mirrors `contextlab.NewBrokerWithEmbedder`. -/
noncomputable def NewBrokerWithEmbedder
    (ret : RetrievalRequest → Except String (List Chunk))
    (emb : String → Except String (List ℝ)) (cfg : BrokerConfig) : Broker :=
  { NewBroker ret cfg with embedder := some emb }

/-- Steps 5-7 shared verbatim by `Broker.Retrieve` and
`Broker.ProcessChunks`: cluster, select, then either MMR (enabled, wired,
and representatives exceed TargetK), top-K trimming, or the
representatives unchanged. Returns the final chunks, the cluster count,
and the final state of the clustered slice. -/
noncomputable def Broker.pipelineTail (b : Broker) (shuffle : ℕ → List ℕ → List ℕ)
    (chunks : List Chunk) : Option (List Chunk × ℕ × List Chunk) :=
  match Clusterer.Cluster b.clusterer chunks with
  | none => none
  | some (clusterResult, chunks') =>
    let sel := Selector.Select b.selector clusterResult
    let representatives := sel.1
    let finalChunks :=
      match b.mmr with
      | some m =>
        if b.cfg.EnableMMR ∧ (representatives.length : ℤ) > b.cfg.TargetK then
          MMR.Rerank shuffle m representatives
        else if (representatives.length : ℤ) > b.cfg.TargetK then
          SelectTopK sel.2 b.cfg.TargetK b.cfg.SelectionStrategy
        else representatives
      | none =>
        if (representatives.length : ℤ) > b.cfg.TargetK then
          SelectTopK sel.2 b.cfg.TargetK b.cfg.SelectionStrategy
        else representatives
    some (finalChunks, clusterResult.ClusterCount, chunks')

/-- Steps 2-8 of `Broker.Retrieve`, entered once the query embedding has
been resolved: the request's TopK, IncludeEmbeddings and IncludeMetadata
fields are overwritten in place before it is handed to the retrieval
collaborator. The second component is the final state of the caller's
request. -/
noncomputable def Broker.retrieveRest (b : Broker) (shuffle : ℕ → List ℕ → List ℕ)
    (req : RetrievalRequest) :
    Option (Except BrokerError BrokerResult × RetrievalRequest) :=
  if req.QueryEmbedding.length = 0 then some (.error .invalidQuery, req)
  else
    let req2 : RetrievalRequest :=
      { req with TopK := b.cfg.OverFetchK, IncludeEmbeddings := true,
                 IncludeMetadata := b.cfg.IncludeMetadata }
    match b.retrieverQ req2 with
    | .error e => some (.error (.retrievalFailed e), req2)
    | .ok cands =>
      if cands.length = 0 then
        some (.ok { Chunks := [],
                    Stats := { Retrieved := 0, Clustered := 0, Returned := 0 } }, req2)
      else
        match Broker.pipelineTail b shuffle cands with
        | none => none
        | some (finalChunks, clustered, _) =>
          some (.ok { Chunks := finalChunks
                      Stats := { Retrieved := cands.length, Clustered := clustered,
                                 Returned := finalChunks.length } }, req2)

/-- Retrieve mirrors `Broker.Retrieve`. Step 1 embeds a text query when no
embedding was supplied, writing the produced vector into the caller's
request; a missing embedder is the configuration error. The second
component is the final state of the caller's request; `none` models a
clustering panic. -/
noncomputable def Broker.Retrieve (b : Broker) (shuffle : ℕ → List ℕ → List ℕ)
    (req : RetrievalRequest) :
    Option (Except BrokerError BrokerResult × RetrievalRequest) :=
  if req.Query ≠ "" ∧ req.QueryEmbedding.length = 0 then
    match b.embedder with
    | none => some (.error .configurationError, req)
    | some emb =>
      match emb req.Query with
      | .error e => some (.error (.embedFailed e), req)
      | .ok v => Broker.retrieveRest b shuffle { req with QueryEmbedding := v }
  else Broker.retrieveRest b shuffle req

/-- ProcessChunks mirrors `Broker.ProcessChunks`: the retrieval steps are
skipped and the pipeline tail runs on the caller's chunks. The second
component is the final state of the caller's slice (clustering assigns
cluster ids through it); `none` models a clustering panic. -/
noncomputable def Broker.ProcessChunks (b : Broker) (shuffle : ℕ → List ℕ → List ℕ)
    (chunks : List Chunk) : Option (BrokerResult × List Chunk) :=
  if chunks.length = 0 then
    some ({ Chunks := [], Stats := { Retrieved := 0, Clustered := 0, Returned := 0 } },
      chunks)
  else
    match Broker.pipelineTail b shuffle chunks with
    | none => none
    | some (finalChunks, clustered, chunks') =>
      some ({ Chunks := finalChunks
              Stats := { Retrieved := chunks.length, Clustered := clustered,
                         Returned := finalChunks.length } }, chunks')

/-! ## Concrete iteration orders and spec-side reference definitions -/

/-- Map iteration order that happens to enumerate the remaining set in
ascending index order every round. -/
def shuffleAsc : ℕ → List ℕ → List ℕ := fun _ r => r

/-- Map iteration order that happens to enumerate the remaining set in
descending index order every round. -/
def shuffleRev : ℕ → List ℕ → List ℕ := fun _ r => r.reverse

/-- Spec-side maximum of the similarities to the already-selected set,
following the spec's formula literally: the maximum over an empty
selected set is 0, otherwise the plain maximum (which may be negative). -/
noncomputable def specMaxSim (sim : ℕ → ℕ → ℝ) (c : ℕ) : List ℕ → ℝ
  | [] => 0
  | s :: ss => ss.foldl (fun m t => max m (sim c t)) (sim c s)

/-- Spec-side MMR score, following the spec's words: lambda times the
normalised score minus (1 - lambda) times the (unclamped) maximum
similarity to the selected set. -/
noncomputable def specMMRScore (lambda : ℝ) (scores : List ℝ) (sim : ℕ → ℕ → ℝ)
    (c : ℕ) (selected : List ℕ) : ℝ :=
  lambda * scores.getD c 0 - (1 - lambda) * specMaxSim sim c selected

/-- Spec-side greedy pick: the remaining candidate with the largest
spec-side MMR score, ties broken by smallest original index (the
remaining list is kept in ascending order and a later candidate must be
strictly larger to win). -/
noncomputable def specPick (lambda : ℝ) (scores : List ℝ) (sim : ℕ → ℕ → ℝ)
    (selected : List ℕ) : List ℕ → ℝ × ℤ → ℝ × ℤ
  | [], st => st
  | idx :: rest, st =>
    let m := specMMRScore lambda scores sim idx selected
    specPick lambda scores sim selected rest (if m > st.1 then (m, (idx : ℤ)) else st)

/-- Spec-side greedy MMR loop with the unclamped similarity penalty and
smallest-index tie-breaking. -/
noncomputable def specMMRLoop (lambda : ℝ) (targetK : ℤ) (scores : List ℝ)
    (sim : ℕ → ℕ → ℝ) : ℕ → List ℕ → List ℕ → List ℕ
  | 0, selected, _ => selected
  | fuel + 1, selected, remaining =>
    if (selected.length : ℤ) < targetK ∧ remaining ≠ [] then
      let st := specPick lambda scores sim selected remaining (-2, -1)
      if 0 ≤ st.2 then
        specMMRLoop lambda targetK scores sim fuel
          (selected ++ [st.2.toNat]) (remaining.erase st.2.toNat)
      else selected
    else selected

/-- Spec-side re-ranker written from the words of the spec's §4.4 greedy
step (claim C5): identical to `MMR.Rerank` except that each iteration
picks the candidate maximising
lambda * normalizedScore - (1 - lambda) * (max over selected of S),
with the max over an empty selected set equal to 0 and ties broken by
smallest original index. -/
noncomputable def specMMRRerank (cfg : MMRConfig) (chunks : List Chunk) : List Chunk :=
  if chunks.length = 0 then []
  else if (chunks.length : ℤ) ≤ cfg.TargetK then chunks
  else
    let scores := normalizeScores chunks
    let sel := specMMRLoop cfg.Lambda cfg.TargetK scores (simEntry chunks)
      chunks.length [] (List.range chunks.length)
    sel.map (fun idx => chunks.getD idx default)

/-- Stable insertion into a list sorted by score descending: the new
element goes after every strictly larger element and before equal ones. -/
noncomputable def insertDesc (x : Chunk) : List Chunk → List Chunk
  | [] => [x]
  | y :: ys => if y.Score > x.Score then y :: insertDesc x ys else x :: y :: ys

/-- Stable descending-score insertion sort (equal scores keep their input
order). -/
noncomputable def stableSortDesc : List Chunk → List Chunk
  | [] => []
  | x :: xs => insertDesc x (stableSortDesc xs)

/-- Spec-side top-K written from the words of the spec's §4.5 step 7
(claim C7): the representatives are sorted by score descending with a
STABLE sort (ties preserve cluster order) and the first TargetK kept. -/
noncomputable def specTopKByScore (result : ClusterResult) (k : ℤ) (strategy : String) :
    List Chunk :=
  let reps := (Selector.Select (NewSelector { DefaultSelectorConfig with Strategy := strategy }) result).1
  if (reps.length : ℤ) ≤ k then reps
  else (stableSortDesc reps).take k.toNat


/-- Field-wise agreement of two chunks everywhere except the ClusterID
field; the only change the clusterer makes to the caller's slice. -/
def sameExceptCID (c c' : Chunk) : Prop :=
  c'.ID = c.ID ∧ c'.Text = c.Text ∧ c'.Embedding = c.Embedding ∧
  c'.Score = c.Score ∧ c'.Metadata = c.Metadata

/-- Retrieval collaborator that always returns zero candidates; used to
instantiate brokers in concrete runs. -/
def retNull : RetrievalRequest → Except String (List Chunk) := fun _ => .ok []

/-- Broker configuration with TargetK 1 and MMR enabled, used to exhibit
tie-dependent behaviour of the greedy MMR loop. -/
noncomputable def cfgTie : BrokerConfig :=
  ⟨50, 1, 0.15, "average", "score", true, 0.5, true, true⟩

/-- Broker built by `NewBroker` from `cfgTie` with no embedder wired. -/
noncomputable def brokerTie : Broker := NewBroker retNull cfgTie


/-- Concrete inputs used in the concrete runs below: a clusterer config at
the boundary threshold 2.0, one at threshold 1, a zero vector, and unit
vectors. -/
noncomputable def cfg3 : ClusterConfig :=
  { Threshold := 2, MinClusters := 0, MaxClusters := 0, Linkage := "average" }

noncomputable def cA : Chunk := ⟨"a", "", [0, 0], 0.9, [], -1⟩

noncomputable def cB : Chunk := ⟨"b", "", [1, 0], 0.8, [], -1⟩

noncomputable def cfg6 : ClusterConfig :=
  { Threshold := 1, MinClusters := 0, MaxClusters := 0, Linkage := "average" }

noncomputable def cP : Chunk := ⟨"p", "", [1, 0], 1, [], -1⟩

noncomputable def cQ : Chunk := ⟨"q", "", [0, 1], 1, [], -1⟩

/-! ## General lemmas about the embedded pipeline -/

lemma sqrt625 : Real.sqrt 625 = 25 := by
  rw [show (625 : ℝ) = 25 ^ 2 by norm_num, Real.sqrt_sq (by norm_num : (0:ℝ) ≤ 25)]

example : CosineDistance [1, 0] [0, 1] = 1 := by
  norm_num [CosineDistance, dotSum, sqSum, clamp1, Real.sqrt_one]

example : CosineDistance [0, 0] [1, 0] = 2 := by
  norm_num [CosineDistance, dotSum, sqSum, clamp1, Real.sqrt_zero]

example : CosineDistance [3, 4] [4, 3] = 1 / 25 := by
  norm_num [CosineDistance, dotSum, sqSum, clamp1, sqrt625]

example : CosineDistance [1, 0] [-1, 0] = 2 := by
  norm_num [CosineDistance, dotSum, sqSum, clamp1, Real.sqrt_one]

lemma sqSum_nonneg (a : List ℝ) : 0 ≤ sqSum a := by
  unfold sqSum
  apply List.sum_nonneg
  intro x hx
  obtain ⟨y, _, rfl⟩ := List.mem_map.mp hx
  exact mul_self_nonneg y

lemma dotSum_comm (a b : List ℝ) : dotSum a b = dotSum b a := by
  unfold dotSum
  rw [List.zipWith_comm_of_comm]
  intro x y
  exact mul_comm x y

lemma clamp1_mem (x : ℝ) : -1 ≤ clamp1 x ∧ clamp1 x ≤ 1 := by
  unfold clamp1
  split_ifs with h1 h2
  · constructor <;> norm_num
  · constructor <;> norm_num
  · constructor <;> linarith

lemma cd_symm (a b : List ℝ) : CosineDistance a b = CosineDistance b a := by
  by_cases h : a.length = 0 ∨ b.length = 0
  · simp only [CosineDistance, if_pos h, if_pos h.symm]
  · simp only [CosineDistance, if_neg h,
      if_neg (fun hc : b.length = 0 ∨ a.length = 0 => h hc.symm)]
    rw [min_comm b.length a.length, dotSum_comm, mul_comm
      (sqSum (b.take (min a.length b.length))) (sqSum (a.take (min a.length b.length)))]

lemma cd_nonneg (a b : List ℝ) : 0 ≤ CosineDistance a b := by
  simp only [CosineDistance]
  split_ifs with h1 h2
  · norm_num
  · norm_num
  · have := (clamp1_mem (dotSum (a.take (min a.length b.length)) (b.take (min a.length b.length)) /
      Real.sqrt (sqSum (a.take (min a.length b.length)) * sqSum (b.take (min a.length b.length))))).2
    linarith

lemma cd_le_two (a b : List ℝ) : CosineDistance a b ≤ 2 := by
  simp only [CosineDistance]
  split_ifs with h1 h2
  · norm_num
  · norm_num
  · have := (clamp1_mem (dotSum (a.take (min a.length b.length)) (b.take (min a.length b.length)) /
      Real.sqrt (sqSum (a.take (min a.length b.length)) * sqSum (b.take (min a.length b.length))))).1
    linarith

lemma cd_empty (a b : List ℝ) (h : a = [] ∨ b = []) : CosineDistance a b = 2 := by
  rw [CosineDistance, if_pos]
  rcases h with h | h <;> simp [h]

lemma cd_zero_mag (a b : List ℝ)
    (h : Real.sqrt (sqSum (a.take (min a.length b.length))) = 0 ∨
         Real.sqrt (sqSum (b.take (min a.length b.length))) = 0) :
    CosineDistance a b = 2 := by
  simp only [CosineDistance]
  split_ifs with h1 h2
  · rfl
  · rfl
  · exfalso
    apply h2
    rcases h with h | h
    · have h0 : sqSum (a.take (min a.length b.length)) = 0 :=
        le_antisymm (Real.sqrt_eq_zero'.mp h) (sqSum_nonneg _)
      rw [h0, zero_mul, Real.sqrt_zero]
    · have h0 : sqSum (b.take (min a.length b.length)) = 0 :=
        le_antisymm (Real.sqrt_eq_zero'.mp h) (sqSum_nonneg _)
      rw [h0, mul_zero, Real.sqrt_zero]

lemma cd_main (a b : List ℝ) (ha : a ≠ []) (hb : b ≠ [])
    (h : Real.sqrt (sqSum (a.take (min a.length b.length)) *
         sqSum (b.take (min a.length b.length))) ≠ 0) :
    CosineDistance a b =
      1 - clamp1 (dotSum (a.take (min a.length b.length)) (b.take (min a.length b.length)) /
        Real.sqrt (sqSum (a.take (min a.length b.length)) *
          sqSum (b.take (min a.length b.length)))) := by
  have hlen : ¬(a.length = 0 ∨ b.length = 0) := by
    simp [List.length_eq_zero, ha, hb]
  simp only [CosineDistance, if_neg hlen, if_neg h]

lemma mergeLoop_break (cfg : ClusterConfig) (chunks : List Chunk) (d : ℕ → ℕ → ℝ)
    (fuel : ℕ) (nodes : List ClusterNode) (ac : ℕ) (dist : ℝ) (i j : ℤ)
    (h1 : ¬ac ≤ 1) (h2 : ¬(0 < cfg.MinClusters ∧ (ac : ℤ) ≤ cfg.MinClusters))
    (hfm : findMin nodes cfg.Linkage d = (dist, i, j)) (hth : cfg.Threshold < dist) :
    mergeLoop cfg chunks d (fuel + 1) nodes ac = some nodes := by
  simp only [mergeLoop, if_neg h1, if_neg h2, hfm, if_pos hth]

lemma mergeLoop_merge (cfg : ClusterConfig) (chunks : List Chunk) (d : ℕ → ℕ → ℝ)
    (fuel : ℕ) (nodes : List ClusterNode) (ac : ℕ) (dist : ℝ) (i j : ℤ)
    (ni nj merged : ClusterNode)
    (h1 : ¬ac ≤ 1) (h2 : ¬(0 < cfg.MinClusters ∧ (ac : ℤ) ≤ cfg.MinClusters))
    (hfm : findMin nodes cfg.Linkage d = (dist, i, j)) (hth : ¬cfg.Threshold < dist)
    (hij : 0 ≤ i ∧ 0 ≤ j)
    (hni : nodes.get? i.toNat = some ni) (hnj : nodes.get? j.toNat = some nj)
    (hmc : mergeClusters ni nj chunks = some merged)
    (hmax : ¬(0 < cfg.MaxClusters ∧ ((ac - 1 : ℕ) : ℤ) ≤ cfg.MaxClusters)) :
    mergeLoop cfg chunks d (fuel + 1) nodes ac =
      mergeLoop cfg chunks d fuel
        ((nodes.set i.toNat merged).set j.toNat { nj with active := false }) (ac - 1) := by
  simp only [mergeLoop, if_neg h1, if_neg h2, hfm, if_neg hth, if_pos hij, hni, hnj,
    hmc, if_neg hmax]

lemma mem_allPairs {n : ℕ} {p : ℕ × ℕ} (h : p ∈ allPairs n) : p.1 < p.2 ∧ p.2 < n := by
  unfold allPairs at h
  simp only [List.mem_flatMap, List.mem_map, List.mem_filter, List.mem_range,
    decide_eq_true_eq] at h
  obtain ⟨i, _, j, ⟨hj, hij⟩, rfl⟩ := h
  exact ⟨hij, hj⟩

lemma distEntry_le_two (chunks : List Chunk) (i j : ℕ) : distEntry chunks i j ≤ 2 := by
  simp only [distEntry]
  split_ifs with h1 h2
  · norm_num
  · norm_num
  · exact cd_le_two _ _

lemma distEntry_eq_cd (chunks : List Chunk) (i j : ℕ) (h : i ≠ j) :
    distEntry chunks i j =
      CosineDistance (chunks.getD i default).Embedding (chunks.getD j default).Embedding := by
  simp only [distEntry, if_neg h]
  split_ifs with h2
  · rcases h2 with h2 | h2
    · rw [cd_empty _ _ (Or.inl (List.length_eq_zero.mp h2))]
    · rw [cd_empty _ _ (Or.inr (List.length_eq_zero.mp h2))]
  · rfl

lemma clusterDistance_singleton_gt (linkage : String) (i j ida idb : ℕ)
    (ca cb : List ℝ) (act1 act2 : Bool) (d : ℕ → ℕ → ℝ) (thr : ℝ)
    (h0 : 0 < thr) (h1 : thr < d i j) (h2 : thr < 2) :
    thr < clusterDistance linkage ⟨ida, [i], ca, act1⟩ ⟨idb, [j], cb, act2⟩ d := by
  unfold clusterDistance crossDists
  simp only [List.flatMap_cons, List.flatMap_nil, List.map_cons, List.map_nil,
    List.append_nil, List.foldl_cons, List.foldl_nil, List.length_cons,
    List.length_nil, List.sum_cons, List.sum_nil]
  split_ifs with hs hc hlt hgt <;> norm_num <;> linarith

lemma findMinAux_gt (nodes : List ClusterNode) (linkage : String) (d : ℕ → ℕ → ℝ)
    (thr : ℝ) : ∀ (pairs : List (ℕ × ℕ)),
    (∀ p ∈ pairs, ∀ a b, nodes.get? p.1 = some a → nodes.get? p.2 = some b →
      thr < clusterDistance linkage a b d) →
    ∀ st : ℝ × ℤ × ℤ, thr < st.1 → thr < (findMinAux nodes linkage d pairs st).1 := by
  intro pairs
  induction pairs with
  | nil => intro _ st hst; exact hst
  | cons p rest ih =>
    intro hp st hst
    simp only [findMinAux]
    apply ih (fun q hq => hp q (List.mem_cons_of_mem p hq))
    match hna : nodes.get? p.1, hnb : nodes.get? p.2 with
    | some a, some b =>
      simp only
      split_ifs with hact hlt
      · exact hp p (List.mem_cons_self p rest) a b hna hnb
      · exact hst
      · exact hst
    | some a, none => exact hst
    | none, some b => exact hst
    | none, none => exact hst

lemma buildClusters_length_all_active (chunks : List Chunk) :
    ∀ (nodes : List ClusterNode) (cid : ℕ), (∀ nd ∈ nodes, nd.active = true) →
    (buildClusters chunks cid nodes).length = nodes.length := by
  intro nodes
  induction nodes with
  | nil => intro cid _; rfl
  | cons nd rest ih =>
    intro cid hact
    rw [buildClusters, if_pos (hact nd (List.mem_cons_self nd rest))]
    simp only [List.length_cons]
    rw [ih (cid + 1) (fun x hx => hact x (List.mem_cons_of_mem nd hx))]

lemma exchangePass_len : ∀ (l : List Chunk) (b : Chunk),
    ((exchangePass b l).2).length = l.length := by
  intro l
  induction l with
  | nil => intro b; simp [exchangePass]
  | cons x xs ih =>
    intro b
    simp only [exchangePass]
    split_ifs <;> simp [ih]

lemma exchangePass_perm : ∀ (l : List Chunk) (b : Chunk),
    List.Perm ((exchangePass b l).1 :: (exchangePass b l).2) (b :: l) := by
  intro l
  induction l with
  | nil => intro b; simp [exchangePass]
  | cons x xs ih =>
    intro b
    simp only [exchangePass]
    split_ifs with h
    · exact (List.Perm.swap _ _ _).trans ((ih x).cons b)
    · exact ((List.Perm.swap _ _ _).trans ((ih b).cons x)).trans (List.Perm.swap _ _ _)

lemma exchangePass_max : ∀ (l : List Chunk) (b : Chunk),
    b.Score ≤ (exchangePass b l).1.Score ∧
    ∀ c ∈ (exchangePass b l).2, c.Score ≤ (exchangePass b l).1.Score := by
  intro l
  induction l with
  | nil => intro b; simp [exchangePass]
  | cons x xs ih =>
    intro b
    simp only [exchangePass]
    split_ifs with h
    · obtain ⟨h1, h2⟩ := ih x
      refine ⟨le_trans (le_of_lt h) h1, ?_⟩
      intro c hc
      rcases List.mem_cons.mp hc with rfl | hc
      · exact le_trans (le_of_lt h) h1
      · exact h2 c hc
    · obtain ⟨h1, h2⟩ := ih b
      refine ⟨h1, ?_⟩
      intro c hc
      rcases List.mem_cons.mp hc with rfl | hc
      · exact le_trans (le_of_not_lt h) h1
      · exact h2 c hc

lemma exchangeSortF_spec : ∀ (fuel : ℕ) (l : List Chunk), l.length ≤ fuel →
    List.Perm (exchangeSortF fuel l) l ∧
    List.Sorted (fun a b => b.Score ≤ a.Score) (exchangeSortF fuel l) := by
  intro fuel
  induction fuel with
  | zero =>
    intro l hl
    have : l = [] := List.length_eq_zero.mp (Nat.le_zero.mp hl)
    subst this
    simp [exchangeSortF]
  | succ n ih =>
    intro l hl
    match l with
    | [] => simp [exchangeSortF]
    | x :: xs =>
      simp only [exchangeSortF]
      have hlen : (exchangePass x xs).2.length = xs.length := exchangePass_len xs x
      have hrec := ih (exchangePass x xs).2 (by
        rw [hlen]
        simpa using hl)
      constructor
      · exact (hrec.1.cons _).trans (exchangePass_perm xs x)
      · rw [List.sorted_cons]
        refine ⟨?_, hrec.2⟩
        intro c hc
        exact (exchangePass_max xs x).2 c ((hrec.1.mem_iff).mp hc)

lemma exchangeSort_spec (l : List Chunk) :
    List.Perm (exchangeSort l) l ∧
    List.Sorted (fun a b => b.Score ≤ a.Score) (exchangeSort l) :=
  exchangeSortF_spec l.length l le_rfl

lemma pickBest_spec (lambda : ℝ) (scores : List ℝ) (sim : ℕ → ℕ → ℝ)
    (selected : List ℕ) : ∀ (cand : List ℕ) (st : ℝ × ℤ),
    (pickBest lambda scores sim selected cand st = st ∧
      ∀ x ∈ cand, computeMMRScore lambda scores sim x selected ≤ st.1) ∨
    (∃ idx pre post, cand = pre ++ idx :: post ∧
      pickBest lambda scores sim selected cand st =
        (computeMMRScore lambda scores sim idx selected, (idx : ℤ)) ∧
      st.1 < computeMMRScore lambda scores sim idx selected ∧
      (∀ x ∈ pre, computeMMRScore lambda scores sim x selected <
        computeMMRScore lambda scores sim idx selected) ∧
      (∀ x ∈ cand, computeMMRScore lambda scores sim x selected ≤
        computeMMRScore lambda scores sim idx selected)) := by
  intro cand
  induction cand with
  | nil =>
    intro st
    left
    exact ⟨rfl, by simp⟩
  | cons c rest ih =>
    intro st
    simp only [pickBest]
    by_cases h : computeMMRScore lambda scores sim c selected > st.1
    · rw [if_pos h]
      rcases ih (computeMMRScore lambda scores sim c selected, (c : ℤ)) with
        ⟨heq, hle⟩ | ⟨idx, pre, post, hsplit, heq, hlt, hpre, hall⟩
      · right
        refine ⟨c, [], rest, rfl, by rw [heq], h, by simp, ?_⟩
        intro x hx
        rcases List.mem_cons.mp hx with rfl | hx
        · exact le_refl _
        · exact hle x hx
      · right
        refine ⟨idx, c :: pre, post, by rw [hsplit, List.cons_append], heq, lt_trans h hlt, ?_, ?_⟩
        · intro x hx
          rcases List.mem_cons.mp hx with rfl | hx
          · exact hlt
          · exact hpre x hx
        · intro x hx
          rcases List.mem_cons.mp hx with rfl | hx
          · exact le_of_lt hlt
          · exact hall x (hsplit ▸ hx)
    · rw [if_neg h]
      rcases ih st with ⟨heq, hle⟩ | ⟨idx, pre, post, hsplit, heq, hlt, hpre, hall⟩
      · left
        refine ⟨heq, ?_⟩
        intro x hx
        rcases List.mem_cons.mp hx with rfl | hx
        · exact le_of_not_lt h
        · exact hle x hx
      · right
        refine ⟨idx, c :: pre, post, by rw [hsplit, List.cons_append], heq, hlt, ?_, ?_⟩
        · intro x hx
          rcases List.mem_cons.mp hx with rfl | hx
          · exact lt_of_le_of_lt (le_of_not_lt h) hlt
          · exact hpre x hx
        · intro x hx
          rcases List.mem_cons.mp hx with rfl | hx
          · exact le_of_lt (lt_of_le_of_lt (le_of_not_lt h) hlt)
          · exact hall x (hsplit ▸ hx)

lemma maxSim_foldl (sim : ℕ → ℕ → ℝ) (c : ℕ) (selected : List ℕ) :
    selected.foldl (fun m s => if sim c s > m then sim c s else m) 0 =
      selected.foldl (fun m s => max m (sim c s)) 0 := by
  have hfun : (fun (m : ℝ) s => if sim c s > m then sim c s else m) =
      (fun m s => max m (sim c s)) := by
    funext m s
    rw [max_def]
    split_ifs with h1 h2 h2 <;> first | rfl | linarith
  rw [hfun]

lemma sameExceptCID_refl (c : Chunk) : sameExceptCID c c :=
  ⟨rfl, rfl, rfl, rfl, rfl⟩

lemma sameExceptCID_setCID (c c' : Chunk) (cid : ℤ) (h : sameExceptCID c c') :
    sameExceptCID c (setCID c' cid) := h

lemma assignSeqIDs_frame : ∀ (l : List Chunk) (s : ℕ),
    (assignSeqIDs s l).length = l.length ∧
    ∀ i, i < l.length →
      sameExceptCID (l.getD i default) ((assignSeqIDs s l).getD i default) := by
  intro l
  induction l with
  | nil => intro s; exact ⟨rfl, fun i hi => absurd hi (by simp)⟩
  | cons c rest ih =>
    intro s
    rw [assignSeqIDs]
    refine ⟨by simp [(ih (s + 1)).1], ?_⟩
    intro i hi
    match i with
    | 0 => exact sameExceptCID_setCID c c _ (sameExceptCID_refl c)
    | i + 1 =>
      simp only [List.getD_cons_succ]
      exact (ih (s + 1)).2 i (by simpa using hi)

lemma applyAssignments_frame (orig : List Chunk) : ∀ (asg : List (ℕ × ℤ))
    (cur : List Chunk), cur.length = orig.length →
    (∀ i, i < orig.length → sameExceptCID (orig.getD i default) (cur.getD i default)) →
    (applyAssignments cur asg).length = orig.length ∧
    ∀ i, i < orig.length →
      sameExceptCID (orig.getD i default) ((applyAssignments cur asg).getD i default) := by
  intro asg
  induction asg with
  | nil => intro cur h1 h2; exact ⟨h1, h2⟩
  | cons p rest ih =>
    intro cur h1 h2
    have hstep : applyAssignments cur (p :: rest) =
        applyAssignments (cur.set p.1 (setCID (cur.getD p.1 default) p.2)) rest := by
      simp [applyAssignments]
    rw [hstep]
    apply ih
    · rw [List.length_set]; exact h1
    · intro i hi
      by_cases hip : i = p.1
      · by_cases hlt : p.1 < cur.length
        · rw [hip]
          simp only [List.getD_eq_getElem?_getD, List.getElem?_set_eq_of_lt _ hlt,
            Option.getD_some]
          exact sameExceptCID_setCID _ _ _ (by
            have h3 := h2 p.1 (hip ▸ hi)
            simpa [List.getD_eq_getElem?_getD] using h3)
        · rw [List.set_eq_of_length_le (le_of_not_lt hlt)]
          exact h2 i hi
      · simp only [List.getD_eq_getElem?_getD, List.getElem?_set_ne (fun h => hip h.symm)]
        simpa [List.getD_eq_getElem?_getD] using h2 i hi

lemma cluster_frame (cfg : ClusterConfig) (chunks : List Chunk)
    (r : ClusterResult) (chunks' : List Chunk)
    (h : Clusterer.Cluster cfg chunks = some (r, chunks')) :
    chunks'.length = chunks.length ∧
    ∀ i, i < chunks.length →
      sameExceptCID (chunks.getD i default) (chunks'.getD i default) := by
  rw [Clusterer.Cluster] at h
  split_ifs at h with h0 h1 h2
  · rw [Option.some_inj] at h
    have hc : chunks' = chunks := (congrArg Prod.snd h).symm
    subst hc
    exact ⟨rfl, fun i hi => sameExceptCID_refl _⟩
  · have hp := Option.some_injective _ h
    have hc : chunks' = [setCID (chunks.getD 0 default) 0] := (congrArg Prod.snd hp).symm
    subst hc
    refine ⟨by simpa using h1.symm, ?_⟩
    intro i hi
    rw [h1] at hi
    match i, hi with
    | 0, _ => exact sameExceptCID_setCID _ _ _ (sameExceptCID_refl _)
  · have hp := Option.some_injective _ h
    have hc : chunks' = assignSeqIDs 0 chunks := (congrArg Prod.snd hp).symm
    subst hc
    exact assignSeqIDs_frame chunks 0
  · simp only [] at h
    cases hml : mergeLoop cfg chunks (distEntry chunks) chunks.length
      ((List.range chunks.length).map (fun i =>
        ({ id := i, members := [i], centroid := (chunks.getD i default).Embedding,
           active := true } : ClusterNode))) chunks.length with
    | none => rw [hml] at h; exact absurd h (by simp)
    | some nodes =>
      rw [hml] at h
      have hp := Option.some_injective _ h
      have hc : chunks' = applyAssignments chunks (buildAssignments 0 nodes) :=
        (congrArg Prod.snd hp).symm
      subst hc
      exact applyAssignments_frame chunks (buildAssignments 0 nodes) chunks rfl
        (fun i _ => sameExceptCID_refl _)

lemma retrieveRest_req (b : Broker) (shuffle : ℕ → List ℕ → List ℕ)
    (req : RetrievalRequest) (out : Except BrokerError BrokerResult)
    (req' : RetrievalRequest)
    (h : Broker.retrieveRest b shuffle req = some (out, req')) :
    req' = req ∨
    req' = { req with
      TopK := b.cfg.OverFetchK
      IncludeEmbeddings := true
      IncludeMetadata := b.cfg.IncludeMetadata } := by
  rw [Broker.retrieveRest] at h
  split_ifs at h with h0
  · left
    exact (congrArg Prod.snd (Option.some_inj.mp h)).symm
  · simp only [] at h
    right
    cases hq : b.retrieverQ { req with
        TopK := b.cfg.OverFetchK
        IncludeEmbeddings := true
        IncludeMetadata := b.cfg.IncludeMetadata } with
    | error e =>
      simp only [hq] at h
      exact (congrArg Prod.snd (Option.some_inj.mp h)).symm
    | ok cands =>
      simp only [hq] at h
      split_ifs at h with hc
      · exact (congrArg Prod.snd (Option.some_inj.mp h)).symm
      · cases hp : Broker.pipelineTail b shuffle cands with
        | none =>
          simp only [hp] at h
          exact absurd h (by simp)
        | some t =>
          simp only [hp] at h
          exact (congrArg Prod.snd (Option.some_inj.mp h)).symm

lemma retrieve_frame (b : Broker) (shuffle : ℕ → List ℕ → List ℕ)
    (req : RetrievalRequest) (out : Except BrokerError BrokerResult)
    (req' : RetrievalRequest)
    (h : Broker.Retrieve b shuffle req = some (out, req')) :
    req'.Query = req.Query ∧ req'.Namespace = req.Namespace ∧
    req'.Filter = req.Filter ∧
    (req'.QueryEmbedding = req.QueryEmbedding ∨ req.QueryEmbedding = []) ∧
    (req'.TopK = req.TopK ∨ req'.TopK = b.cfg.OverFetchK) ∧
    (req'.IncludeEmbeddings = req.IncludeEmbeddings ∨ req'.IncludeEmbeddings = true) ∧
    (req'.IncludeMetadata = req.IncludeMetadata ∨
      req'.IncludeMetadata = b.cfg.IncludeMetadata) := by
  rw [Broker.Retrieve] at h
  split_ifs at h with h0
  · cases hemb : b.embedder with
    | none =>
      simp only [hemb] at h
      have hc : req' = req := (congrArg Prod.snd (Option.some_inj.mp h)).symm
      subst hc
      exact ⟨rfl, rfl, rfl, Or.inl rfl, Or.inl rfl, Or.inl rfl, Or.inl rfl⟩
    | some emb =>
      simp only [hemb] at h
      cases he : emb req.Query with
      | error e =>
        simp only [he] at h
        have hc : req' = req := (congrArg Prod.snd (Option.some_inj.mp h)).symm
        subst hc
        exact ⟨rfl, rfl, rfl, Or.inl rfl, Or.inl rfl, Or.inl rfl, Or.inl rfl⟩
      | ok v =>
        simp only [he] at h
        have hq : req.QueryEmbedding = [] := List.length_eq_zero.mp h0.2
        rcases retrieveRest_req b shuffle _ out req' h with hc | hc <;> subst hc <;>
          refine ⟨by simp, by simp, by simp, Or.inr hq, by simp, by simp, by simp⟩
  · rcases retrieveRest_req b shuffle req out req' h with hc | hc <;> subst hc <;>
      refine ⟨by simp, by simp, by simp, by simp, by simp, by simp, by simp⟩


/-! ## Concrete runs of the embedded pipeline -/

lemma dAB : distEntry [cA, cB] 0 1 = 2 := by
  norm_num [distEntry, cA, cB, CosineDistance, dotSum, sqSum, clamp1, Real.sqrt_zero]

lemma cdAB : clusterDistance "average" ⟨0, [0], [0, 0], true⟩ ⟨1, [1], [1, 0], true⟩
    (distEntry [cA, cB]) = 2 := by
  simp only [clusterDistance, crossDists]
  norm_num [dAB]

lemma fmAB : findMin [⟨0, [0], [0, 0], true⟩, ⟨1, [1], [1, 0], true⟩] "average"
    (distEntry [cA, cB]) = (2, -1, -1) := by
  simp only [findMin, findMinAux, allPairs, List.length_cons, List.length_nil,
    List.range_succ, List.range_zero, List.flatMap_cons, List.flatMap_nil,
    List.filter_cons, List.filter_nil, List.map_cons, List.map_nil, List.nil_append, List.cons_append,
    List.append_nil, List.get?_eq_getElem?, List.getElem?_cons_zero,
    List.getElem?_cons_succ, Bool.and_self, if_true, cdAB]
  norm_num

lemma mlAB : mergeLoop cfg3 [cA, cB] (distEntry [cA, cB]) 2
    [⟨0, [0], [0, 0], true⟩, ⟨1, [1], [1, 0], true⟩] 2 = none := by
  simp only [mergeLoop, cfg3, fmAB]
  norm_num

lemma clusterAB : Clusterer.Cluster cfg3 [cA, cB] = none := by
  have hemb : ¬([cA, cB].all (fun c => c.Embedding.length = 0) = true) := by
    simp [cA, cB]
  simp only [Clusterer.Cluster, List.length_cons, List.length_nil, hemb,
    List.range_succ, List.range_zero, List.map_cons, List.map_nil,
    List.nil_append, List.cons_append, List.getD, List.get?_eq_getElem?,
    List.getElem?_cons_zero, List.getElem?_cons_succ, Option.getD_some,
    show cA.Embedding = [0, 0] from rfl, show cB.Embedding = [1, 0] from rfl]
  norm_num [mlAB]

lemma dPQ : distEntry [cP, cQ] 0 1 = 1 := by
  norm_num [distEntry, cP, cQ, CosineDistance, dotSum, sqSum, clamp1, Real.sqrt_one]

lemma cdPQ : clusterDistance "average" ⟨0, [0], [1, 0], true⟩ ⟨1, [1], [0, 1], true⟩
    (distEntry [cP, cQ]) = 1 := by
  simp only [clusterDistance, crossDists]
  norm_num [dPQ]

lemma fmPQ : findMin [⟨0, [0], [1, 0], true⟩, ⟨1, [1], [0, 1], true⟩] "average"
    (distEntry [cP, cQ]) = (1, 0, 1) := by
  simp only [findMin, findMinAux, allPairs, List.length_cons, List.length_nil,
    List.range_succ, List.range_zero, List.flatMap_cons, List.flatMap_nil,
    List.filter_cons, List.filter_nil, List.map_cons, List.map_nil, List.nil_append, List.cons_append,
    List.append_nil, List.get?_eq_getElem?, List.getElem?_cons_zero,
    List.getElem?_cons_succ, Bool.and_self, if_true, cdPQ]
  norm_num

lemma mcPQ : mergeClusters ⟨0, [0], [1, 0], true⟩ ⟨1, [1], [0, 1], true⟩ [cP, cQ]
    = some ⟨0, [0, 1], [1 / 2, 1 / 2], true⟩ := by
  simp only [mergeClusters, cP, cQ]
  norm_num [List.range_succ]

lemma mlPQ : mergeLoop cfg6 [cP, cQ] (distEntry [cP, cQ]) 2
    [⟨0, [0], [1, 0], true⟩, ⟨1, [1], [0, 1], true⟩] 2 = some
    [⟨0, [0, 1], [1 / 2, 1 / 2], true⟩, ⟨1, [1], [0, 1], false⟩] := by
  simp only [mergeLoop, cfg6, fmPQ]
  norm_num [mcPQ, mergeLoop]

lemma clusterPQ : (Clusterer.Cluster cfg6 [cP, cQ]).map (fun p => p.1.ClusterCount)
    = some 1 := by
  have hemb : ¬([cP, cQ].all (fun c => c.Embedding.length = 0) = true) := by
    simp [cP, cQ]
  simp only [Clusterer.Cluster, List.length_cons, List.length_nil, hemb,
    List.range_succ, List.range_zero, List.map_cons, List.map_nil,
    List.nil_append, List.cons_append, List.getD, List.get?_eq_getElem?,
    List.getElem?_cons_zero, List.getElem?_cons_succ, Option.getD_some,
    show cP.Embedding = [1, 0] from rfl, show cQ.Embedding = [0, 1] from rfl]
  norm_num [mlPQ, buildClusters]

lemma d01 : distEntry [⟨"x", "", [], 1, [], -1⟩, ⟨"y", "", [3, 4], 1, [], -1⟩, ⟨"z", "", [4, 3], 1, [], -1⟩] 0 1 = 2 := by
  norm_num [distEntry]

lemma d02 : distEntry [⟨"x", "", [], 1, [], -1⟩, ⟨"y", "", [3, 4], 1, [], -1⟩, ⟨"z", "", [4, 3], 1, [], -1⟩] 0 2 = 2 := by
  norm_num [distEntry]

lemma d12 : distEntry [⟨"x", "", [], 1, [], -1⟩, ⟨"y", "", [3, 4], 1, [], -1⟩, ⟨"z", "", [4, 3], 1, [], -1⟩] 1 2 = 1 / 25 := by
  norm_num [distEntry, CosineDistance, dotSum, sqSum, clamp1, sqrt625]

lemma cd01a : clusterDistance "average" ⟨0, [0], [], true⟩ ⟨1, [1], [3, 4], true⟩
    (distEntry [⟨"x", "", [], 1, [], -1⟩, ⟨"y", "", [3, 4], 1, [], -1⟩, ⟨"z", "", [4, 3], 1, [], -1⟩]) = 2 := by
  simp only [clusterDistance, crossDists]
  norm_num [d01]

lemma cd02a : clusterDistance "average" ⟨0, [0], [], true⟩ ⟨2, [2], [4, 3], true⟩
    (distEntry [⟨"x", "", [], 1, [], -1⟩, ⟨"y", "", [3, 4], 1, [], -1⟩, ⟨"z", "", [4, 3], 1, [], -1⟩]) = 2 := by
  simp only [clusterDistance, crossDists]
  norm_num [d02]

lemma cd12a : clusterDistance "average" ⟨1, [1], [3, 4], true⟩ ⟨2, [2], [4, 3], true⟩
    (distEntry [⟨"x", "", [], 1, [], -1⟩, ⟨"y", "", [3, 4], 1, [], -1⟩, ⟨"z", "", [4, 3], 1, [], -1⟩]) = 1 / 25 := by
  simp only [clusterDistance, crossDists]
  norm_num [d12]

lemma cd01b : clusterDistance "average" ⟨0, [0], [], true⟩ ⟨1, [1, 2], [3, 4], true⟩
    (distEntry [⟨"x", "", [], 1, [], -1⟩, ⟨"y", "", [3, 4], 1, [], -1⟩, ⟨"z", "", [4, 3], 1, [], -1⟩]) = 2 := by
  simp only [clusterDistance, crossDists]
  norm_num [d01, d02]

lemma fm012 : findMin [⟨0, [0], [], true⟩, ⟨1, [1], [3, 4], true⟩, ⟨2, [2], [4, 3], true⟩]
    "average" (distEntry [⟨"x", "", [], 1, [], -1⟩, ⟨"y", "", [3, 4], 1, [], -1⟩, ⟨"z", "", [4, 3], 1, [], -1⟩]) = (1 / 25, 1, 2) := by
  simp only [findMin, findMinAux, allPairs, List.length_cons, List.length_nil,
    List.range_succ, List.range_zero, List.flatMap_cons, List.flatMap_nil,
    List.filter_cons, List.filter_nil, List.map_cons, List.map_nil, List.nil_append, List.cons_append,
    List.append_nil, List.get?_eq_getElem?, List.getElem?_cons_zero,
    List.getElem?_cons_succ, Bool.and_self, if_true, cd01a, cd02a, cd12a]
  norm_num

lemma fm012b : findMin [⟨0, [0], [], true⟩, ⟨1, [1, 2], [3, 4], true⟩, ⟨2, [2], [4, 3], false⟩]
    "average" (distEntry [⟨"x", "", [], 1, [], -1⟩, ⟨"y", "", [3, 4], 1, [], -1⟩, ⟨"z", "", [4, 3], 1, [], -1⟩]) = (2, -1, -1) := by
  simp only [findMin, findMinAux, allPairs, List.length_cons, List.length_nil,
    List.range_succ, List.range_zero, List.flatMap_cons, List.flatMap_nil,
    List.filter_cons, List.filter_nil, List.map_cons, List.map_nil, List.nil_append, List.cons_append,
    List.append_nil, List.get?_eq_getElem?, List.getElem?_cons_zero,
    List.getElem?_cons_succ, Bool.and_self, Bool.and_false, Bool.false_and,
    Bool.and_true, Bool.true_and, if_true, if_false, cd01b]
  norm_num

lemma mc12 : mergeClusters ⟨1, [1], [3, 4], true⟩ ⟨2, [2], [4, 3], true⟩ [⟨"x", "", [], 1, [], -1⟩, ⟨"y", "", [3, 4], 1, [], -1⟩, ⟨"z", "", [4, 3], 1, [], -1⟩]
    = some ⟨1, [1, 2], [3, 4], true⟩ := by
  norm_num [mergeClusters]

lemma ml012 : mergeLoop DefaultClusterConfig [⟨"x", "", [], 1, [], -1⟩, ⟨"y", "", [3, 4], 1, [], -1⟩, ⟨"z", "", [4, 3], 1, [], -1⟩] (distEntry [⟨"x", "", [], 1, [], -1⟩, ⟨"y", "", [3, 4], 1, [], -1⟩, ⟨"z", "", [4, 3], 1, [], -1⟩]) 3
    [⟨0, [0], [], true⟩, ⟨1, [1], [3, 4], true⟩, ⟨2, [2], [4, 3], true⟩] 3 = some
    [⟨0, [0], [], true⟩, ⟨1, [1, 2], [3, 4], true⟩, ⟨2, [2], [4, 3], false⟩] := by
  rw [mergeLoop_merge DefaultClusterConfig [⟨"x", "", [], 1, [], -1⟩, ⟨"y", "", [3, 4], 1, [], -1⟩, ⟨"z", "", [4, 3], 1, [], -1⟩] (distEntry [⟨"x", "", [], 1, [], -1⟩, ⟨"y", "", [3, 4], 1, [], -1⟩, ⟨"z", "", [4, 3], 1, [], -1⟩]) 2
    [⟨0, [0], [], true⟩, ⟨1, [1], [3, 4], true⟩, ⟨2, [2], [4, 3], true⟩] 3 (1 / 25) 1 2
    ⟨1, [1], [3, 4], true⟩ ⟨2, [2], [4, 3], true⟩ ⟨1, [1, 2], [3, 4], true⟩
    (by norm_num) (by norm_num [DefaultClusterConfig])
    (by rw [show DefaultClusterConfig.Linkage = "average" from rfl]; exact fm012)
    (by norm_num [DefaultClusterConfig]) (by norm_num) (by rfl) (by rfl) mc12
    (by norm_num [DefaultClusterConfig])]
  norm_num [List.set]
  rw [mergeLoop_break DefaultClusterConfig [⟨"x", "", [], 1, [], -1⟩, ⟨"y", "", [3, 4], 1, [], -1⟩, ⟨"z", "", [4, 3], 1, [], -1⟩] (distEntry [⟨"x", "", [], 1, [], -1⟩, ⟨"y", "", [3, 4], 1, [], -1⟩, ⟨"z", "", [4, 3], 1, [], -1⟩]) 1
    [⟨0, [0], [], true⟩, ⟨1, [1, 2], [3, 4], true⟩, ⟨2, [2], [4, 3], false⟩] 2 2 (-1) (-1)
    (by norm_num) (by norm_num [DefaultClusterConfig])
    (by rw [show DefaultClusterConfig.Linkage = "average" from rfl]; exact fm012b)
    (by norm_num [DefaultClusterConfig])]

lemma cluster012 : (Clusterer.Cluster DefaultClusterConfig [⟨"x", "", [], 1, [], -1⟩, ⟨"y", "", [3, 4], 1, [], -1⟩, ⟨"z", "", [4, 3], 1, [], -1⟩]).map
    (fun p => p.1.Clusters.map (fun cl => (cl.Centroid, cl.Members.map Chunk.Embedding)))
    = some [([], [[]]), ([3, 4], [[3, 4], [4, 3]])] := by
  have hemb : ¬(([⟨"x", "", [], 1, [], -1⟩, ⟨"y", "", [3, 4], 1, [], -1⟩, ⟨"z", "", [4, 3], 1, [], -1⟩] : List Chunk).all (fun c => c.Embedding.length = 0) = true) := by
    simp
  simp only [Clusterer.Cluster, List.length_cons, List.length_nil, hemb,
    List.range_succ, List.range_zero, List.map_cons, List.map_nil,
    List.nil_append, List.cons_append, List.getD, List.get?_eq_getElem?,
    List.getElem?_cons_zero, List.getElem?_cons_succ, Option.getD_some]
  norm_num [ml012, buildClusters, setCID]

lemma dab : distEntry [⟨"a", "", [1, 0], 1, [], -1⟩, ⟨"b", "", [0, 1], 1, [], -1⟩] 0 1 = 1 := by
  norm_num [distEntry, CosineDistance, dotSum, sqSum, clamp1, Real.sqrt_one]

lemma cdab : clusterDistance "average" ⟨0, [0], [1, 0], true⟩ ⟨1, [1], [0, 1], true⟩
    (distEntry [⟨"a", "", [1, 0], 1, [], -1⟩, ⟨"b", "", [0, 1], 1, [], -1⟩]) = 1 := by
  simp only [clusterDistance, crossDists]
  norm_num [dab]

lemma fmab : findMin [⟨0, [0], [1, 0], true⟩, ⟨1, [1], [0, 1], true⟩] "average"
    (distEntry [⟨"a", "", [1, 0], 1, [], -1⟩, ⟨"b", "", [0, 1], 1, [], -1⟩]) = (1, 0, 1) := by
  simp only [findMin, findMinAux, allPairs, List.length_cons, List.length_nil,
    List.range_succ, List.range_zero, List.flatMap_cons, List.flatMap_nil,
    List.filter_cons, List.filter_nil, List.map_cons, List.map_nil, List.nil_append, List.cons_append,
    List.append_nil, List.get?_eq_getElem?, List.getElem?_cons_zero,
    List.getElem?_cons_succ, Bool.and_self, if_true, cdab]
  norm_num

lemma mlab : mergeLoop ⟨0.15, 0, 0, "average"⟩ [⟨"a", "", [1, 0], 1, [], -1⟩, ⟨"b", "", [0, 1], 1, [], -1⟩] (distEntry [⟨"a", "", [1, 0], 1, [], -1⟩, ⟨"b", "", [0, 1], 1, [], -1⟩]) 2
    [⟨0, [0], [1, 0], true⟩, ⟨1, [1], [0, 1], true⟩] 2 = some
    [⟨0, [0], [1, 0], true⟩, ⟨1, [1], [0, 1], true⟩] := by
  rw [mergeLoop_break ⟨0.15, 0, 0, "average"⟩ [⟨"a", "", [1, 0], 1, [], -1⟩, ⟨"b", "", [0, 1], 1, [], -1⟩] (distEntry [⟨"a", "", [1, 0], 1, [], -1⟩, ⟨"b", "", [0, 1], 1, [], -1⟩]) 1
    [⟨0, [0], [1, 0], true⟩, ⟨1, [1], [0, 1], true⟩] 2 1 0 1
    (by norm_num) (by norm_num) fmab (by norm_num)]

lemma clusterab : Clusterer.Cluster ⟨0.15, 0, 0, "average"⟩ [⟨"a", "", [1, 0], 1, [], -1⟩, ⟨"b", "", [0, 1], 1, [], -1⟩] = some (⟨[⟨0, [⟨"a", "", [1, 0], 1, [], 0⟩], [1, 0], none⟩, ⟨1, [⟨"b", "", [0, 1], 1, [], 1⟩], [0, 1], none⟩], [], 2, 2⟩, [⟨"a", "", [1, 0], 1, [], 0⟩, ⟨"b", "", [0, 1], 1, [], 1⟩]) := by
  have hemb : ¬(([⟨"a", "", [1, 0], 1, [], -1⟩, ⟨"b", "", [0, 1], 1, [], -1⟩] : List Chunk).all (fun c => c.Embedding.length = 0) = true) := by
    simp
  simp only [Clusterer.Cluster, List.length_cons, List.length_nil, hemb,
    List.range_succ, List.range_zero, List.map_cons, List.map_nil,
    List.nil_append, List.cons_append, List.getD, List.get?_eq_getElem?,
    List.getElem?_cons_zero, List.getElem?_cons_succ, Option.getD_some]
  rw [mlab]
  norm_num [buildClusters, buildAssignments, applyAssignments, setCID,
    List.set_cons_zero, List.set_cons_succ, List.getElem_cons_zero, List.getElem_cons_succ]
  rfl

lemma selectab : Selector.Select ⟨"score", 0, 0, 0⟩ ⟨[⟨0, [⟨"a", "", [1, 0], 1, [], 0⟩], [1, 0], none⟩, ⟨1, [⟨"b", "", [0, 1], 1, [], 1⟩], [0, 1], none⟩], [], 2, 2⟩ = ([⟨"a", "", [1, 0], 1, [], 0⟩, ⟨"b", "", [0, 1], 1, [], 1⟩],
    ⟨[⟨0, [⟨"a", "", [1, 0], 1, [], 0⟩], [1, 0], some ⟨"a", "", [1, 0], 1, [], 0⟩⟩, ⟨1, [⟨"b", "", [0, 1], 1, [], 1⟩], [0, 1], some ⟨"b", "", [0, 1], 1, [], 1⟩⟩], [⟨"a", "", [1, 0], 1, [], 0⟩, ⟨"b", "", [0, 1], 1, [], 1⟩], 2, 2⟩) := by
  norm_num [Selector.Select, SelectFromCluster, List.filterMap_cons]

lemma rerankabAsc : MMR.Rerank shuffleAsc ⟨0.5, 1⟩ [⟨"a", "", [1, 0], 1, [], 0⟩, ⟨"b", "", [0, 1], 1, [], 1⟩] = [⟨"a", "", [1, 0], 1, [], 0⟩] := by
  norm_num [MMR.Rerank, shuffleAsc, rerankLoop, pickBest, computeMMRScore,
    normalizeScores, List.range_succ, List.cons_ne_nil]

lemma rerankabRev : MMR.Rerank shuffleRev ⟨0.5, 1⟩ [⟨"a", "", [1, 0], 1, [], 0⟩, ⟨"b", "", [0, 1], 1, [], 1⟩] = [⟨"b", "", [0, 1], 1, [], 1⟩] := by
  norm_num [MMR.Rerank, shuffleRev, rerankLoop, pickBest, computeMMRScore,
    normalizeScores, List.range_succ, List.cons_ne_nil]

lemma brokerTie_clusterer : brokerTie.clusterer = ⟨0.15, 0, 0, "average"⟩ := by
  norm_num [brokerTie, NewBroker, NewClusterer, cfgTie]

lemma brokerTie_selector : brokerTie.selector = ⟨"score", 0, 0, 0⟩ := by
  norm_num [brokerTie, NewBroker, NewSelector, cfgTie]

lemma brokerTie_mmr : brokerTie.mmr = some ⟨0.5, 1⟩ := by
  norm_num [brokerTie, NewBroker, NewMMR, cfgTie]

lemma brokerTie_enable : brokerTie.cfg.EnableMMR = true := by
  norm_num [brokerTie, NewBroker, cfgTie]

lemma brokerTie_targetK : brokerTie.cfg.TargetK = 1 := by
  norm_num [brokerTie, NewBroker, cfgTie]

lemma processAsc : (Broker.ProcessChunks brokerTie shuffleAsc [⟨"a", "", [1, 0], 1, [], -1⟩, ⟨"b", "", [0, 1], 1, [], -1⟩]).map
    (fun p => p.1.Chunks.map Chunk.ID) = some ["a"] := by
  simp only [Broker.ProcessChunks, Broker.pipelineTail, brokerTie_clusterer, brokerTie_selector,
    brokerTie_mmr, brokerTie_enable, brokerTie_targetK, clusterab, selectab, rerankabAsc,
    List.length_cons, List.length_nil]
  norm_num

lemma processRev : (Broker.ProcessChunks brokerTie shuffleRev [⟨"a", "", [1, 0], 1, [], -1⟩, ⟨"b", "", [0, 1], 1, [], -1⟩]).map
    (fun p => p.1.Chunks.map Chunk.ID) = some ["b"] := by
  simp only [Broker.ProcessChunks, Broker.pipelineTail, brokerTie_clusterer, brokerTie_selector,
    brokerTie_mmr, brokerTie_enable, brokerTie_targetK, clusterab, selectab, rerankabRev,
    List.length_cons, List.length_nil]
  norm_num

lemma s10 : simEntry [⟨"u", "", [1, 0], 2, [], -1⟩, ⟨"v", "", [-1, 0], 0, [], -1⟩, ⟨"w", "", [0, 1], 1, [], -1⟩] 1 0 = -1 := by
  norm_num [simEntry, CosineDistance, dotSum, sqSum, clamp1, Real.sqrt_one]

lemma s20 : simEntry [⟨"u", "", [1, 0], 2, [], -1⟩, ⟨"v", "", [-1, 0], 0, [], -1⟩, ⟨"w", "", [0, 1], 1, [], -1⟩] 2 0 = 0 := by
  norm_num [simEntry, CosineDistance, dotSum, sqSum, clamp1, Real.sqrt_one]

lemma rerank5 : (MMR.Rerank shuffleAsc ⟨0.5, 2⟩ [⟨"u", "", [1, 0], 2, [], -1⟩, ⟨"v", "", [-1, 0], 0, [], -1⟩, ⟨"w", "", [0, 1], 1, [], -1⟩]).map Chunk.ID = ["u", "w"] := by
  norm_num [MMR.Rerank, shuffleAsc, rerankLoop, pickBest, computeMMRScore,
    normalizeScores, List.range_succ, List.cons_ne_nil, s10, s20]
  rfl

lemma spec5 : (specMMRRerank ⟨0.5, 2⟩ [⟨"u", "", [1, 0], 2, [], -1⟩, ⟨"v", "", [-1, 0], 0, [], -1⟩, ⟨"w", "", [0, 1], 1, [], -1⟩]).map Chunk.ID = ["u", "v"] := by
  norm_num [specMMRRerank, specMMRLoop, specPick, specMMRScore, specMaxSim,
    normalizeScores, List.range_succ, List.cons_ne_nil, s10, s20]

lemma topk7 : (SelectTopK ⟨[⟨0, [⟨"a2", "", [], 2, [], 0⟩], [], none⟩, ⟨1, [⟨"b2", "", [], 2, [], 1⟩], [], none⟩, ⟨2, [⟨"c3", "", [], 3, [], 2⟩], [], none⟩], [], 3, 3⟩ 2 "score").map Chunk.ID = ["c3", "b2"] := by
  norm_num [SelectTopK, Selector.Select, SelectFromCluster, NewSelector,
    DefaultSelectorConfig, List.filterMap_cons, exchangeSort, exchangeSortF,
    exchangePass]
  rfl

lemma spectopk7 : (specTopKByScore ⟨[⟨0, [⟨"a2", "", [], 2, [], 0⟩], [], none⟩, ⟨1, [⟨"b2", "", [], 2, [], 1⟩], [], none⟩, ⟨2, [⟨"c3", "", [], 3, [], 2⟩], [], none⟩], [], 3, 3⟩ 2 "score").map Chunk.ID = ["c3", "a2"] := by
  norm_num [specTopKByScore, Selector.Select, SelectFromCluster, NewSelector,
    DefaultSelectorConfig, List.filterMap_cons, stableSortDesc, insertDesc]
  rfl

/-! ## Claims -/

/-- C1: the spec claims the pipeline is deterministic — two runs on the same
input yield identical results. The greedy loop of `MMR.Rerank` iterates a
Go map (`for idx := range remaining`), whose order is unspecified; with
tied MMR scores the selected chunk depends on that order. On two chunks
with equal scores and TargetK 1, one iteration order returns chunk "a"
and another returns chunk "b". -/
theorem C1_rerank_depends_on_map_order :
    (Broker.ProcessChunks brokerTie shuffleAsc
        [⟨"a", "", [1, 0], 1, [], -1⟩, ⟨"b", "", [0, 1], 1, [], -1⟩]).map
      (fun p => p.1.Chunks.map Chunk.ID) = some ["a"] ∧
    (Broker.ProcessChunks brokerTie shuffleRev
        [⟨"a", "", [1, 0], 1, [], -1⟩, ⟨"b", "", [0, 1], 1, [], -1⟩]).map
      (fun p => p.1.Chunks.map Chunk.ID) = some ["b"] ∧
    (some ["a"] : Option (List String)) ≠ some ["b"] :=
  ⟨processAsc, processRev, by decide⟩

/-- C2 counterexample: the claim says Cluster leaves the caller's chunks
(including cluster_id) unchanged. Even on a single chunk, the code
assigns `chunks[0].ClusterID = 0` through the caller's slice, so the
slice after the call differs from the original. -/
theorem C2_counterexample :
    (Clusterer.Cluster DefaultClusterConfig [⟨"s", "", [1], 1, [], -1⟩]).map Prod.snd =
      some [⟨"s", "", [1], 1, [], 0⟩] ∧
    (⟨"s", "", [1], 1, [], 0⟩ : Chunk) ≠ ⟨"s", "", [1], 1, [], -1⟩ := by
  constructor
  · norm_num [Clusterer.Cluster, setCID]
  · intro h
    have h2 := congrArg Chunk.ClusterID h
    norm_num at h2

/-- C2 amended: Cluster may rewrite the ClusterID field of the caller's
chunks but leaves every other field of every chunk unchanged; Retrieve
leaves Query, Namespace and Filter unchanged, but may overwrite TopK with
OverFetchK, force IncludeEmbeddings to true, overwrite IncludeMetadata
with the configured value, and fill in QueryEmbedding when it was empty
and a text query was embedded. -/
theorem C2_frame_amended :
    (∀ (cfg : ClusterConfig) (chunks : List Chunk) (r : ClusterResult)
      (chunks' : List Chunk), Clusterer.Cluster cfg chunks = some (r, chunks') →
      chunks'.length = chunks.length ∧
      ∀ i, i < chunks.length →
        sameExceptCID (chunks.getD i default) (chunks'.getD i default)) ∧
    (∀ (b : Broker) (shuffle : ℕ → List ℕ → List ℕ) (req : RetrievalRequest)
      (out : Except BrokerError BrokerResult) (req' : RetrievalRequest),
      Broker.Retrieve b shuffle req = some (out, req') →
      req'.Query = req.Query ∧ req'.Namespace = req.Namespace ∧
      req'.Filter = req.Filter ∧
      (req'.QueryEmbedding = req.QueryEmbedding ∨ req.QueryEmbedding = []) ∧
      (req'.TopK = req.TopK ∨ req'.TopK = b.cfg.OverFetchK) ∧
      (req'.IncludeEmbeddings = req.IncludeEmbeddings ∨ req'.IncludeEmbeddings = true) ∧
      (req'.IncludeMetadata = req.IncludeMetadata ∨
        req'.IncludeMetadata = b.cfg.IncludeMetadata)) :=
  ⟨cluster_frame, retrieve_frame⟩

/-- C2 witness: the amended frame property applied to a concrete empty
clustering run and to a concrete invalid-query Retrieve call. -/
theorem C2_frame_amended_witness :
    (([] : List Chunk).length = ([] : List Chunk).length ∧
      ∀ i, i < ([] : List Chunk).length →
        sameExceptCID (([] : List Chunk).getD i default)
          (([] : List Chunk).getD i default)) ∧
    ((⟨"", [], 7, "ns", [], false, false⟩ : RetrievalRequest).Query =
        (⟨"", [], 7, "ns", [], false, false⟩ : RetrievalRequest).Query ∧
      (⟨"", [], 7, "ns", [], false, false⟩ : RetrievalRequest).Namespace =
        (⟨"", [], 7, "ns", [], false, false⟩ : RetrievalRequest).Namespace ∧
      (⟨"", [], 7, "ns", [], false, false⟩ : RetrievalRequest).Filter =
        (⟨"", [], 7, "ns", [], false, false⟩ : RetrievalRequest).Filter ∧
      ((⟨"", [], 7, "ns", [], false, false⟩ : RetrievalRequest).QueryEmbedding =
          (⟨"", [], 7, "ns", [], false, false⟩ : RetrievalRequest).QueryEmbedding ∨
        (⟨"", [], 7, "ns", [], false, false⟩ : RetrievalRequest).QueryEmbedding = []) ∧
      ((⟨"", [], 7, "ns", [], false, false⟩ : RetrievalRequest).TopK =
          (⟨"", [], 7, "ns", [], false, false⟩ : RetrievalRequest).TopK ∨
        (⟨"", [], 7, "ns", [], false, false⟩ : RetrievalRequest).TopK =
          brokerTie.cfg.OverFetchK) ∧
      ((⟨"", [], 7, "ns", [], false, false⟩ : RetrievalRequest).IncludeEmbeddings =
          (⟨"", [], 7, "ns", [], false, false⟩ : RetrievalRequest).IncludeEmbeddings ∨
        (⟨"", [], 7, "ns", [], false, false⟩ : RetrievalRequest).IncludeEmbeddings = true) ∧
      ((⟨"", [], 7, "ns", [], false, false⟩ : RetrievalRequest).IncludeMetadata =
          (⟨"", [], 7, "ns", [], false, false⟩ : RetrievalRequest).IncludeMetadata ∨
        (⟨"", [], 7, "ns", [], false, false⟩ : RetrievalRequest).IncludeMetadata =
          brokerTie.cfg.IncludeMetadata)) :=
  ⟨C2_frame_amended.1 DefaultClusterConfig [] ⟨[], [], 0, 0⟩ []
      (by norm_num [Clusterer.Cluster]),
   C2_frame_amended.2 brokerTie shuffleAsc ⟨"", [], 7, "ns", [], false, false⟩
      (.error .invalidQuery) ⟨"", [], 7, "ns", [], false, false⟩
      (by rw [Broker.Retrieve, if_neg (by simp)]; simp [Broker.retrieveRest])⟩

/-- C3: the claim (and spec) says Cluster cannot fail for any Threshold in
(0, 2]. With Threshold = 2.0 and a pair at cosine distance exactly 2.0
(a zero vector against a unit vector), no pair is strictly closer than
the 2.0 sentinel, so minI stays -1, the 2.0 > 2.0 stop test fails, and
the code indexes `nodes[-1]` — a runtime panic, modelled as `none`. -/
theorem C3_threshold_two_panics : Clusterer.Cluster cfg3 [cA, cB] = none := clusterAB

/-- C4: the claim says every cluster's centroid is the arithmetic mean of
its members' embeddings, recomputed on every merge. `mergeClusters` only
recomputes when chunk 0 of the input slice has a non-empty embedding;
with chunk 0 embedding-less, chunks [3,4] and [4,3] merge (distance 1/25
below the 0.15 threshold) but the surviving cluster keeps centroid
[3,4] instead of the mean [3.5, 3.5]. -/
theorem C4_centroid_not_recomputed :
    (Clusterer.Cluster DefaultClusterConfig
        [⟨"x", "", [], 1, [], -1⟩, ⟨"y", "", [3, 4], 1, [], -1⟩,
         ⟨"z", "", [4, 3], 1, [], -1⟩]).map
      (fun p => p.1.Clusters.map (fun cl => (cl.Centroid, cl.Members.map Chunk.Embedding)))
      = some [([], [[]]), ([3, 4], [[3, 4], [4, 3]])] ∧
    ([3, 4] : List ℝ) ≠ [(3 + 4) / 2, (4 + 3) / 2] := by
  refine ⟨cluster012, ?_⟩
  intro h
  have h2 := congrArg (fun l => l.getD 0 (0 : ℝ)) h
  norm_num at h2

/-- C5 counterexample: the claim says each iteration picks the candidate
maximising lambda * score - (1 - lambda) * (max similarity to selected),
ties to the smallest index. The code floors the similarity penalty at 0
(its running maximum starts at 0), so for a candidate anti-parallel to
the selected chunk (similarity -1) the code computes a lower MMR score
than the spec formula: the code picks "w" where the spec formula picks
"v", even with ascending iteration order. -/
theorem C5_counterexample :
    (MMR.Rerank shuffleAsc ⟨0.5, 2⟩
        [⟨"u", "", [1, 0], 2, [], -1⟩, ⟨"v", "", [-1, 0], 0, [], -1⟩,
         ⟨"w", "", [0, 1], 1, [], -1⟩]).map Chunk.ID = ["u", "w"] ∧
    (specMMRRerank ⟨0.5, 2⟩
        [⟨"u", "", [1, 0], 2, [], -1⟩, ⟨"v", "", [-1, 0], 0, [], -1⟩,
         ⟨"w", "", [0, 1], 1, [], -1⟩]).map Chunk.ID = ["u", "v"] ∧
    (["u", "w"] : List String) ≠ ["u", "v"] :=
  ⟨rerank5, spec5, by decide⟩

/-- C5 amended: each iteration of the greedy loop selects a candidate
maximising lambda * normalizedScore - (1 - lambda) * max(0, max over
selected of S) — the similarity penalty is floored at 0 — and among the
maximisers the one that comes first in the (unspecified) map iteration
order, not necessarily the one with the smallest original index. -/
theorem C5_greedy_step_amended (lambda : ℝ) (scores : List ℝ) (sim : ℕ → ℕ → ℝ)
    (selected cand : List ℕ) (hne : cand ≠ [])
    (hgt : ∀ c ∈ cand, -2 < computeMMRScore lambda scores sim c selected) :
    (∀ c : ℕ, selected ≠ [] → computeMMRScore lambda scores sim c selected =
      lambda * scores.getD c 0 -
        (1 - lambda) * selected.foldl (fun m s => max m (sim c s)) 0) ∧
    ∃ idx pre post, cand = pre ++ idx :: post ∧
      pickBest lambda scores sim selected cand (-2, -1) =
        (computeMMRScore lambda scores sim idx selected, (idx : ℤ)) ∧
      (∀ x ∈ pre, computeMMRScore lambda scores sim x selected <
        computeMMRScore lambda scores sim idx selected) ∧
      ∀ x ∈ cand, computeMMRScore lambda scores sim x selected ≤
        computeMMRScore lambda scores sim idx selected := by
  constructor
  · intro c hsel
    simp only [computeMMRScore, if_neg hsel, maxSim_foldl]
  · rcases pickBest_spec lambda scores sim selected cand (-2, -1) with ⟨_, hle⟩ | h
    · exfalso
      match cand, hne, hle, hgt with
      | c :: rest, _, hle, hgt =>
        exact absurd (hle c (List.mem_cons_self c rest))
          (not_le.mpr (hgt c (List.mem_cons_self c rest)))
    · obtain ⟨idx, pre, post, hsplit, heq, _, hpre, hall⟩ := h
      exact ⟨idx, pre, post, hsplit, heq, hpre, hall⟩

/-- C5 witness: the amended greedy step applied to a concrete two-candidate
selection round. -/
theorem C5_greedy_step_amended_witness :
    ∃ idx pre post, ([0, 1] : List ℕ) = pre ++ idx :: post ∧
      pickBest (1 / 2) [1, 0] (fun _ _ => 0) [] [0, 1] (-2, -1) =
        (computeMMRScore (1 / 2) [1, 0] (fun _ _ => 0) idx [], (idx : ℤ)) ∧
      (∀ x ∈ pre, computeMMRScore (1 / 2) [1, 0] (fun _ _ => 0) x [] <
        computeMMRScore (1 / 2) [1, 0] (fun _ _ => 0) idx []) ∧
      ∀ x ∈ ([0, 1] : List ℕ), computeMMRScore (1 / 2) [1, 0] (fun _ _ => 0) x [] ≤
        computeMMRScore (1 / 2) [1, 0] (fun _ _ => 0) idx [] :=
  (C5_greedy_step_amended (1 / 2) [1, 0] (fun _ _ => 0) [] [0, 1] (by simp)
    (by
      intro c hc
      rcases List.mem_cons.mp hc with rfl | hc
      · norm_num [computeMMRScore]
      · rcases List.mem_cons.mp hc with rfl | hc
        · norm_num [computeMMRScore]
        · simp at hc)).2

/-- C6 counterexample: the claim says that when every pairwise distance is
at least the threshold, no merge happens. At distance exactly equal to
the threshold (orthogonal unit vectors, Threshold 1) the stop test
`minDist > Threshold` fails and the two chunks merge into one cluster
instead of the claimed two. -/
theorem C6_counterexample :
    CosineDistance [1, 0] [0, 1] = 1 ∧
    (Clusterer.Cluster cfg6 [cP, cQ]).map (fun p => p.1.ClusterCount) = some 1 :=
  ⟨by norm_num [CosineDistance, dotSum, sqSum, clamp1, Real.sqrt_one], clusterPQ⟩

/-- C6 amended: when every pairwise cosine distance between distinct chunks
is STRICTLY GREATER than the threshold (MinClusters and MaxClusters
disabled), Cluster performs no merges and the cluster count equals the
input count. -/
theorem C6_strict_threshold_amended (cfg : ClusterConfig) (chunks : List Chunk)
    (hthr : 0 < cfg.Threshold) (hthr2 : cfg.Threshold ≤ 2)
    (hmin : cfg.MinClusters = 0) (hmax : cfg.MaxClusters = 0)
    (hd : ∀ i j, i < j → j < chunks.length →
      cfg.Threshold < CosineDistance (chunks.getD i default).Embedding
        (chunks.getD j default).Embedding) :
    ∃ r chunks', Clusterer.Cluster cfg chunks = some (r, chunks') ∧
      r.ClusterCount = chunks.length := by
  simp only [Clusterer.Cluster]
  split_ifs with h0 h1 h2
  · exact ⟨_, _, rfl, h0.symm⟩
  · exact ⟨_, _, rfl, h1.symm⟩
  · exact ⟨_, _, rfl, rfl⟩
  · set nodes0 := (List.range chunks.length).map (fun i =>
      ({ id := i, members := [i], centroid := (chunks.getD i default).Embedding,
         active := true } : ClusterNode)) with hnodes0
    have hn2 : 2 ≤ chunks.length := by omega
    have hthrlt2 : cfg.Threshold < 2 := by
      have ha := hd 0 1 (by norm_num) (by omega)
      have hb := cd_le_two (chunks.getD 0 default).Embedding (chunks.getD 1 default).Embedding
      linarith
    have hnlen : nodes0.length = chunks.length := by
      rw [hnodes0, List.length_map, List.length_range]
    have hget : ∀ k, k < chunks.length →
        nodes0.get? k = some ⟨k, [k], (chunks.getD k default).Embedding, true⟩ := by
      intro k hk
      rw [hnodes0, List.get?_map, List.get?_range hk]
      rfl
    have hfm : cfg.Threshold < (findMin nodes0 cfg.Linkage (distEntry chunks)).1 := by
      unfold findMin
      apply findMinAux_gt nodes0 cfg.Linkage (distEntry chunks) cfg.Threshold
        (allPairs nodes0.length) ?_ (2, -1, -1) hthrlt2
      intro p hp a b hna hnb
      obtain ⟨hij, hjn⟩ := mem_allPairs hp
      rw [hnlen] at hjn
      have hin : p.1 < chunks.length := lt_trans hij hjn
      rw [hget p.1 hin] at hna
      rw [hget p.2 hjn] at hnb
      obtain rfl := Option.some_injective _ hna
      obtain rfl := Option.some_injective _ hnb
      apply clusterDistance_singleton_gt cfg.Linkage p.1 p.2 _ _ _ _ _ _
        (distEntry chunks) cfg.Threshold hthr ?_ hthrlt2
      rw [distEntry_eq_cd chunks p.1 p.2 (Nat.ne_of_lt hij)]
      exact hd p.1 p.2 hij hjn
    obtain ⟨m, hm⟩ : ∃ m, chunks.length = m + 1 := ⟨chunks.length - 1, by omega⟩
    have hml : mergeLoop cfg chunks (distEntry chunks) chunks.length nodes0
        chunks.length = some nodes0 := by
      rw [hm]
      exact mergeLoop_break cfg chunks (distEntry chunks) m nodes0 (m + 1)
        (findMin nodes0 cfg.Linkage (distEntry chunks)).1
        (findMin nodes0 cfg.Linkage (distEntry chunks)).2.1
        (findMin nodes0 cfg.Linkage (distEntry chunks)).2.2
        (by omega) (by rw [hmin]; simp) rfl hfm
    rw [hml]
    refine ⟨_, _, rfl, ?_⟩
    show (buildClusters chunks 0 nodes0).length = chunks.length
    rw [buildClusters_length_all_active chunks nodes0 0 ?_, hnlen]
    intro nd hnd
    rw [hnodes0] at hnd
    obtain ⟨i, _, rfl⟩ := List.mem_map.mp hnd
    rfl

/-- C6 witness: the amended threshold property applied to two orthogonal
unit vectors (distance 1) at threshold 0.15: two clusters survive. -/
theorem C6_strict_threshold_amended_witness :
    ∃ r chunks', Clusterer.Cluster ⟨0.15, 0, 0, "average"⟩ [cP, cQ] =
      some (r, chunks') ∧ r.ClusterCount = ([cP, cQ] : List Chunk).length :=
  C6_strict_threshold_amended ⟨0.15, 0, 0, "average"⟩ [cP, cQ] (by norm_num)
    (by norm_num) rfl rfl
    (by
      intro i j hij hj
      simp only [List.length_cons, List.length_nil] at hj
      have hi0 : i = 0 := by omega
      have hj1 : j = 1 := by omega
      subst hi0
      subst hj1
      show (0.15 : ℝ) < CosineDistance cP.Embedding cQ.Embedding
      rw [show cP.Embedding = [1, 0] from rfl, show cQ.Embedding = [0, 1] from rfl]
      norm_num [CosineDistance, dotSum, sqSum, clamp1, Real.sqrt_one])

/-- C7 counterexample: the claim says equal-score representatives keep
their relative cluster order (stable sort). The exchange sort in
`SelectTopK` swaps a later larger element into the current position,
displacing the current element past its equal-score peers: on scores
[2, 2, 3] it returns [c3, b2] where a stable sort returns [c3, a2]. -/
theorem C7_counterexample :
    (SelectTopK ⟨[⟨0, [⟨"a2", "", [], 2, [], 0⟩], [], none⟩,
        ⟨1, [⟨"b2", "", [], 2, [], 1⟩], [], none⟩,
        ⟨2, [⟨"c3", "", [], 3, [], 2⟩], [], none⟩], [], 3, 3⟩ 2 "score").map Chunk.ID =
      ["c3", "b2"] ∧
    (specTopKByScore ⟨[⟨0, [⟨"a2", "", [], 2, [], 0⟩], [], none⟩,
        ⟨1, [⟨"b2", "", [], 2, [], 1⟩], [], none⟩,
        ⟨2, [⟨"c3", "", [], 3, [], 2⟩], [], none⟩], [], 3, 3⟩ 2 "score").map Chunk.ID =
      ["c3", "a2"] ∧
    (["c3", "b2"] : List String) ≠ ["c3", "a2"] :=
  ⟨topk7, spectopk7, by decide⟩

/-- C7 amended: when the representatives exceed TargetK, `SelectTopK`
returns the first TargetK entries of an exchange sort of the
representatives; that sort is a permutation of the representatives and
is ordered by score descending, but it is NOT stable — equal-score
representatives may be reordered. -/
theorem C7_topk_amended (result : ClusterResult) (k : ℤ) (strategy : String) :
    SelectTopK result k strategy =
      (if ((((Selector.Select (NewSelector { DefaultSelectorConfig with Strategy := strategy }) result).1).length : ℤ) ≤ k) then ((Selector.Select (NewSelector { DefaultSelectorConfig with Strategy := strategy }) result).1)
       else (exchangeSort ((Selector.Select (NewSelector { DefaultSelectorConfig with Strategy := strategy }) result).1)).take k.toNat) ∧
    List.Perm (exchangeSort ((Selector.Select (NewSelector { DefaultSelectorConfig with Strategy := strategy }) result).1)) ((Selector.Select (NewSelector { DefaultSelectorConfig with Strategy := strategy }) result).1) ∧
    List.Sorted (fun a b => b.Score ≤ a.Score) (exchangeSort ((Selector.Select (NewSelector { DefaultSelectorConfig with Strategy := strategy }) result).1)) :=
  ⟨rfl, (exchangeSort_spec _).1, (exchangeSort_spec _).2⟩

/-- C8: CosineDistance is symmetric; its result always lies in [0, 2]; it
equals 2 when either vector is empty or either truncated vector's
magnitude is zero; otherwise it equals 1 minus the clamped dot-product
ratio. -/
theorem C8_cosine_distance_kernel (a b : List ℝ) :
    CosineDistance a b = CosineDistance b a ∧
    0 ≤ CosineDistance a b ∧ CosineDistance a b ≤ 2 ∧
    ((a = [] ∨ b = []) → CosineDistance a b = 2) ∧
    ((Real.sqrt (sqSum (a.take (min a.length b.length))) = 0 ∨
      Real.sqrt (sqSum (b.take (min a.length b.length))) = 0) →
      CosineDistance a b = 2) ∧
    (a ≠ [] → b ≠ [] →
      Real.sqrt (sqSum (a.take (min a.length b.length)) *
        sqSum (b.take (min a.length b.length))) ≠ 0 →
      CosineDistance a b =
        1 - clamp1 (dotSum (a.take (min a.length b.length))
            (b.take (min a.length b.length)) /
          Real.sqrt (sqSum (a.take (min a.length b.length)) *
            sqSum (b.take (min a.length b.length))))) :=
  ⟨cd_symm a b, cd_nonneg a b, cd_le_two a b, cd_empty a b, cd_zero_mag a b,
   cd_main a b⟩

/-- C8 witness: the kernel contract applied to an empty vector, a zero
vector, and a pair of non-degenerate vectors. -/
theorem C8_cosine_distance_kernel_witness :
    CosineDistance [] [1] = 2 ∧
    CosineDistance [0, 0] [1, 0] = 2 ∧
    CosineDistance [3, 4] [4, 3] = 1 / 25 := by
  refine ⟨(C8_cosine_distance_kernel [] [1]).2.2.2.1 (Or.inl rfl),
    (C8_cosine_distance_kernel [0, 0] [1, 0]).2.2.2.2.1 (Or.inl (by
      norm_num [sqSum, Real.sqrt_zero])), ?_⟩
  have h := (C8_cosine_distance_kernel [3, 4] [4, 3]).2.2.2.2.2 (by simp) (by simp)
    (by norm_num [sqSum, sqrt625])
  rw [h]
  norm_num [dotSum, sqSum, clamp1, sqrt625]

/-- C9: Retrieve fails with the configuration error on a text query with
no embedder wired, fails with the invalid-query error when both the query
text and the query embedding are empty, and returns a successful empty
result with populated stats when the retrieval collaborator returns zero
candidates. -/
theorem C9_broker_error_cases (b : Broker) (shuffle : ℕ → List ℕ → List ℕ)
    (req : RetrievalRequest) :
    (req.Query ≠ "" → req.QueryEmbedding = [] → b.embedder = none →
      Broker.Retrieve b shuffle req = some (.error .configurationError, req)) ∧
    (req.Query = "" → req.QueryEmbedding = [] →
      Broker.Retrieve b shuffle req = some (.error .invalidQuery, req)) ∧
    (req.QueryEmbedding ≠ [] →
      b.retrieverQ { req with
        TopK := b.cfg.OverFetchK
        IncludeEmbeddings := true
        IncludeMetadata := b.cfg.IncludeMetadata } = .ok [] →
      Broker.Retrieve b shuffle req =
        some (.ok { Chunks := [],
                    Stats := { Retrieved := 0, Clustered := 0, Returned := 0 } },
          { req with
            TopK := b.cfg.OverFetchK
            IncludeEmbeddings := true
            IncludeMetadata := b.cfg.IncludeMetadata })) := by
  refine ⟨?_, ?_, ?_⟩
  · intro hq he hn
    rw [Broker.Retrieve, if_pos ⟨hq, by simp [he]⟩, hn]
  · intro hq he
    rw [Broker.Retrieve, if_neg (by simp [hq]), Broker.retrieveRest,
      if_pos (by simp [he])]
  · intro he hr
    rw [Broker.Retrieve, if_neg (by simp [List.length_eq_zero, he]),
      Broker.retrieveRest, if_neg (by simp [List.length_eq_zero, he])]
    simp [hr]

/-- C9 witness: the three error-path behaviours on a concrete broker with
no embedder and a retrieval collaborator that returns zero candidates. -/
theorem C9_broker_error_cases_witness :
    Broker.Retrieve brokerTie shuffleAsc ⟨"q", [], 7, "ns", [], false, false⟩ =
      some (.error .configurationError, ⟨"q", [], 7, "ns", [], false, false⟩) ∧
    Broker.Retrieve brokerTie shuffleAsc ⟨"", [], 7, "ns", [], false, false⟩ =
      some (.error .invalidQuery, ⟨"", [], 7, "ns", [], false, false⟩) ∧
    Broker.Retrieve brokerTie shuffleAsc ⟨"", [1], 7, "ns", [], false, false⟩ =
      some (.ok { Chunks := [],
                  Stats := { Retrieved := 0, Clustered := 0, Returned := 0 } },
        { (⟨"", [1], 7, "ns", [], false, false⟩ : RetrievalRequest) with
          TopK := brokerTie.cfg.OverFetchK
          IncludeEmbeddings := true
          IncludeMetadata := brokerTie.cfg.IncludeMetadata }) :=
  ⟨(C9_broker_error_cases brokerTie shuffleAsc _).1 (by simp) rfl rfl,
   (C9_broker_error_cases brokerTie shuffleAsc _).2.1 rfl rfl,
   (C9_broker_error_cases brokerTie shuffleAsc _).2.2 (by simp) rfl⟩

/-- C10: on a non-empty chunk list and non-empty query embedding,
RerankWithQuery overwrites every chunk's Score in the caller's slice with
the cosine similarity to the query (1 minus the cosine distance), and
then re-ranks the rewritten slice. -/
theorem C10_rerank_with_query_overwrites_scores (shuffle : ℕ → List ℕ → List ℕ)
    (cfg : MMRConfig) (chunks : List Chunk) (q : List ℝ)
    (hc : chunks ≠ []) (hq : q ≠ []) :
    (MMR.RerankWithQuery shuffle cfg chunks q).1 =
      chunks.map (fun c => { c with Score := 1 - CosineDistance c.Embedding q }) ∧
    (MMR.RerankWithQuery shuffle cfg chunks q).2 =
      MMR.Rerank shuffle cfg
        (chunks.map (fun c => { c with Score := 1 - CosineDistance c.Embedding q })) := by
  rw [MMR.RerankWithQuery, if_neg (by simp [List.length_eq_zero, hc, hq])]
  exact ⟨rfl, rfl⟩

/-- C10 witness: the score overwrite on a single concrete chunk. -/
theorem C10_rerank_with_query_overwrites_scores_witness :
    (MMR.RerankWithQuery shuffleAsc ⟨0.5, 8⟩ [⟨"t", "", [1, 0], 5, [], -1⟩] [0, 1]).1 =
      ([⟨"t", "", [1, 0], 5, [], -1⟩] : List Chunk).map
        (fun c => { c with Score := 1 - CosineDistance c.Embedding [0, 1] }) ∧
    (MMR.RerankWithQuery shuffleAsc ⟨0.5, 8⟩ [⟨"t", "", [1, 0], 5, [], -1⟩] [0, 1]).2 =
      MMR.Rerank shuffleAsc ⟨0.5, 8⟩
        (([⟨"t", "", [1, 0], 5, [], -1⟩] : List Chunk).map
          (fun c => { c with Score := 1 - CosineDistance c.Embedding [0, 1] })) :=
  C10_rerank_with_query_overwrites_scores shuffleAsc ⟨0.5, 8⟩
    [⟨"t", "", [1, 0], 5, [], -1⟩] [0, 1] (by simp) (by simp)

end Distill
